import Mathlib

/-! # cacti::Logger (common/cacti/logging/Logger.cpp)

A shallow embedding of the logger tree: level resolution along the parent
chain, handler dispatch with additivity, and the level-gated logging calls.

Loggers live in a heap addressed by natural numbers; a `LoggerPtr` is an
address or null. Walks over the parent chain take a fuel argument and report
a null dereference or exhausted fuel explicitly.
-/

namespace cacti

/-! ## Levels -/

/-- Values of a log level. The header declaring `LogControlID` is not part of
the sources; `Logger.cpp` only compares such values with `<` and `>=`, so they
are integer codes here. -/
abbrev LogControlID := Int

/-- The constants `LogLevel::FATAL` .. `LogLevel::NOTSET` used by `Logger.cpp`.
Their values are declared in a header that is not part of the sources, so the
table is a parameter of every function that reads a constant. -/
structure LogLevel where
  FATAL : LogControlID
  ALERT : LogControlID
  ERR : LogControlID
  WARN : LogControlID
  INFO : LogControlID
  DBG : LogControlID
  NOTSET : LogControlID
  deriving DecidableEq, Repr

/-! ## Records and handlers -/

/-- Modelled from the spec: `Timestamp` is declared outside the sources; the
code only builds `Timestamp(0, 0)` explicitly, every other record takes the
current time of the call. -/
structure Timestamp where
  sec : Nat
  usec : Nat
  deriving DecidableEq, Repr

/-- Modelled from the spec: `LogRecord` is declared outside the sources. The
fields are the ones of the spec's data model (logger name, message, level,
timestamp, `hasIndex`, `index`), filled in the order of the constructor
arguments used in `Logger.cpp`. -/
structure LogRecord where
  loggerName : String
  message : String
  level : LogControlID
  hasIndex : Bool
  index : Nat
  timestamp : Timestamp
  deriving DecidableEq, Repr

/-- Modelled from the spec: the `LogHandler` interface (`getName`, `publish`)
is declared outside the sources. `publish r` is `true` when the call returns
and `false` when it raises. -/
structure LogHandler where
  getName : String
  publish : LogRecord → Bool

/-- A possibly null reference to a handler (`LogHandlerPtr`); a handler is
identified by its address. -/
abbrev LogHandlerPtr := Option Nat

/-- Argument list of a C format (`va_list`); `none` is the `NULL` passed by
`logNoTime`. -/
abbrev va_list := Option (List String)

/-- Modelled from the spec: `boost::format` after `exceptions(no_error_bits)`:
`str()` always yields a string. -/
structure BoostFormat where
  str : String
  deriving DecidableEq, Repr

/-! ## Loggers -/

/-- A possibly null reference to a logger (`LoggerPtr`). -/
abbrev LoggerPtr := Option Nat

/-- The data members of `Logger`. `m_handlers` holds addresses of handlers:
`addHandler` is the only function that inserts and it rejects null. -/
structure Logger where
  m_name : String
  m_parent : LoggerPtr
  m_level : LogControlID
  m_isAdditive : Bool
  m_handlers : List Nat
  deriving DecidableEq, Repr

/-- The loggers kept alive by the registry, by address. -/
abbrev Heap := Nat → Logger

/-- What surrounds a call: the level constants, the handler objects by
address, the formatter behind the formatting constructor of `LogRecord`
(`none` when formatting raises), the current time, and whether `_DEBUG` is
defined for the build. -/
structure Env where
  lv : LogLevel
  handler : Nat → LogHandler
  vformat : String → va_list → Option String
  now : Timestamp
  debugBuild : Bool

/-- Why a call did not return normally: an exception is under way, the
process was ended by `std::unexpected` after an exception met an exception
specification `throw()`, a null pointer was dereferenced, or the fuel of the
walk ran out. -/
inductive Fault where
  | exception
  | terminate
  | nullDeref
  | outOfFuel
  deriving DecidableEq, Repr

/-- Result of a walk that computes a value. -/
inductive Res (α : Type) where
  | ok (a : α)
  | fault (f : Fault)
  deriving DecidableEq, Repr

/-- Exceptions raised synchronously by the configuration calls. -/
inductive Exception where
  | invalid_argument (what : String)
  deriving DecidableEq, Repr

/-- The constructor `Logger::Logger(name, parent, level)`; it initialises
`m_isAdditive` with `false`. -/
def Logger.new (name : String) (parent : LoggerPtr) (level : LogControlID) : Logger :=
  { m_name := name, m_parent := parent, m_level := level, m_isAdditive := false,
    m_handlers := [] }

/-- Source: `Logger::getName`. -/
def Logger.getName (l : Logger) : String := l.m_name

/-- Source: `Logger::getLevel`. -/
def Logger.getLevel (l : Logger) : LogControlID := l.m_level

/-- Source: `Logger::getParent`. -/
def Logger.getParent (l : Logger) : LoggerPtr := l.m_parent

/-- Source: `Logger::getAdditivity`. -/
def Logger.getAdditivity (l : Logger) : Bool := l.m_isAdditive

/-- Source: `Logger::setAdditivity` on the logger at address `p`. -/
def setAdditivity (h : Heap) (p : Nat) (additivity : Bool) : Heap :=
  Function.update h p { h p with m_isAdditive := additivity }

/-- Source: `Logger::setLevel` on the logger at address `p`: the new heap and the
exception raised, if any. The throw happens before any assignment. -/
def setLevel (lv : LogLevel) (h : Heap) (p : Nat) (level : LogControlID) :
    Heap × Option Exception :=
  if level < lv.NOTSET ∨ (h p).getParent ≠ none then
    (Function.update h p { h p with m_level := level }, none)
  else
    (h, some (Exception.invalid_argument "cannot set level NOTSET on Root Logger"))

/-- Source: `Logger::getChainedLevel`, started at `c`: the loop
`while (c->getLevel() >= NOTSET) c = c->getParent().get();` followed by
`return c->getLevel()`. Each step of fuel is one evaluation of the loop
condition. -/
def getChainedLevel (lv : LogLevel) (h : Heap) : Nat → LoggerPtr → Res LogControlID
  | _, none => Res.fault Fault.nullDeref
  | 0, some _ => Res.fault Fault.outOfFuel
  | fuel + 1, some c =>
    if (h c).getLevel ≥ lv.NOTSET then getChainedLevel lv h fuel (h c).getParent
    else Res.ok (h c).getLevel

/-- Source: `Logger::isLevelEnabled`: `getChainedLevel() >= level`. -/
def isLevelEnabled (lv : LogLevel) (h : Heap) (fuel : Nat) (p : Nat)
    (level : LogControlID) : Res Bool :=
  match getChainedLevel lv h fuel (some p) with
  | Res.ok c => Res.ok (decide (c ≥ level))
  | Res.fault f => Res.fault f

/-- The relation `Chain h p ps`: following parent links from `p` visits exactly the
addresses `ps` (starting with `p`) and ends at a logger without parent. -/
inductive Chain (h : Heap) : Nat → List Nat → Prop where
  | root (p : Nat) : (h p).m_parent = none → Chain h p [p]
  | step (p q : Nat) (ps : List Nat) :
      (h p).m_parent = some q → Chain h q ps → Chain h p (p :: ps)

/-! ## Dispatch -/

/-- What a call does that an observer can see: a `LogRecord` constructor ran
(`none` when it raised while formatting), or `publish` was invoked on the
handler at address `handler` by the logger at address `via`. -/
inductive Event where
  | newRecord (rec : Option LogRecord)
  | publish (via : Nat) (handler : Nat) (rec : LogRecord)
  deriving DecidableEq, Repr

/-- The events of a call in order, and how it ended: `none` when it returned
normally. -/
structure Run where
  trace : List Event
  result : Option Fault
  deriving DecidableEq, Repr

/-- A call that does nothing and returns. -/
def Run.skip : Run := { trace := [], result := none }

/-- Sequencing of two statements: the second runs only when the first
returned. -/
def Run.seq (a b : Run) : Run :=
  match a.result with
  | none => { trace := a.trace ++ b.trace, result := b.result }
  | some _ => a

/-- The exception specification `throw()` of a function whose body ran as `r`:
an exception that would leave the function ends the process instead. -/
def Run.nothrow (r : Run) : Run :=
  match r.result with
  | some Fault.exception => { trace := r.trace, result := some Fault.terminate }
  | _ => r

/-- The loop of `callHandlers` over `m_handlers`: `(*it)->publish(rec)` for each
entry in list order; an exception raised by a handler leaves the loop. -/
def publishLoop (env : Env) (via : Nat) (rec : LogRecord) : List Nat → Run
  | [] => Run.skip
  | r :: rs =>
    if (env.handler r).publish rec then
      Run.seq { trace := [Event.publish via r rec], result := none }
        (publishLoop env via rec rs)
    else
      { trace := [Event.publish via r rec], result := some Fault.exception }

/-- Source: `Logger::callHandlers` on the logger at address `p`. One unit of
fuel per logger visited. The function is declared `throw()`: an exception
raised by a handler does not leave it, the process ends. -/
def callHandlers (env : Env) (h : Heap) (rec : LogRecord) : Nat → Nat → Run
  | 0, _ => { trace := [], result := some Fault.outOfFuel }
  | fuel + 1, p =>
    Run.nothrow
      (Run.seq
        (if !(h p).m_handlers.isEmpty then publishLoop env p rec (h p).m_handlers
         else Run.skip)
        (match (h p).getAdditivity, (h p).getParent with
         | true, some q => callHandlers env h rec fuel q
         | _, _ => Run.skip))

/-! ## Building records -/

/-- Modelled from the spec: the constructor
`LogRecord(name, message, level, hasIndex, index, timestamp)` that stores its
arguments; the record is reported as built. -/
def LogRecord.build (name message : String) (level : LogControlID) (hasIndex : Bool)
    (index : Nat) (timestamp : Timestamp) : LogRecord × Run :=
  let event : LogRecord := { loggerName := name, message := message, level := level,
                             hasIndex := hasIndex, index := index, timestamp := timestamp }
  (event, { trace := [Event.newRecord (some event)], result := none })

/-- Modelled from the spec: the constructor
`LogRecord(name, format, arguments, level, hasIndex, index, timestamp)` that
formats the message first; it raises when formatting fails. -/
def LogRecord.buildFormatted (env : Env) (name format : String) (arguments : va_list)
    (level : LogControlID) (hasIndex : Bool) (index : Nat) (timestamp : Timestamp) :
    Option LogRecord × Run :=
  match env.vformat format arguments with
  | some message =>
    let r := LogRecord.build name message level hasIndex index timestamp
    (some r.1, r.2)
  | none => (none, { trace := [Event.newRecord none], result := some Fault.exception })

/-- The statements `LogRecord event(name, message, ...); callHandlers(event);`. -/
def dispatchPlain (env : Env) (h : Heap) (fuel p : Nat) (message : String)
    (level : LogControlID) (hasIndex : Bool) (index : Nat) (timestamp : Timestamp) : Run :=
  let r := LogRecord.build (h p).getName message level hasIndex index timestamp
  Run.seq r.2 (callHandlers env h r.1 fuel p)

/-- The statements
`LogRecord event(name, format, arguments, ...); callHandlers(event);`. -/
def dispatchFormatted (env : Env) (h : Heap) (fuel p : Nat) (format : String)
    (arguments : va_list) (level : LogControlID) (hasIndex : Bool) (index : Nat)
    (timestamp : Timestamp) : Run :=
  match LogRecord.buildFormatted env (h p).getName format arguments level hasIndex index
      timestamp with
  | (some event, r) => Run.seq r (callHandlers env h event fuel p)
  | (none, r) => r

/-- The block `try { body } catch(...) { handler }`, compiled only when
`_DEBUG` is not defined; with `_DEBUG` the body stands alone. The handler
runs for an exception that reaches the block; a process that has ended is not
resumed. -/
def tryCatchUnlessDebug (env : Env) (body handler : Run) : Run :=
  if env.debugBuild then body
  else
    match body.result with
    | some Fault.exception => { trace := body.trace ++ handler.trace, result := handler.result }
    | _ => body

/-- Source: `Logger::logUnconditionally(level, format, arguments)`, declared
`throw()`. -/
def logUnconditionally (env : Env) (h : Heap) (fuel p : Nat) (level : LogControlID)
    (format : String) (arguments : va_list) : Run :=
  Run.nothrow
    (tryCatchUnlessDebug env
      (dispatchFormatted env h fuel p format arguments level false 0 env.now)
      (dispatchPlain env h fuel p format env.lv.FATAL false 0 env.now))

/-- Source: `Logger::logUnconditionally(level, index, format, arguments)`,
declared `throw()`. -/
def logUnconditionallyIndex (env : Env) (h : Heap) (fuel p : Nat) (level : LogControlID)
    (index : Nat) (format : String) (arguments : va_list) : Run :=
  Run.nothrow
    (tryCatchUnlessDebug env
      (dispatchFormatted env h fuel p format arguments level true index env.now)
      (dispatchPlain env h fuel p format env.lv.FATAL true index env.now))

/-- Source: `Logger::logUnconditionallyNoTime(level, format, arguments)`,
declared `throw()`. -/
def logUnconditionallyNoTime (env : Env) (h : Heap) (fuel p : Nat) (level : LogControlID)
    (format : String) (arguments : va_list) : Run :=
  Run.nothrow
    (tryCatchUnlessDebug env
      (dispatchFormatted env h fuel p format arguments level false 0 { sec := 0, usec := 0 })
      (dispatchPlain env h fuel p format level false 0 { sec := 0, usec := 0 }))

/-- The guard `if (isLevelEnabled(level)) { body }` of every logging call. -/
def ifLevelEnabled (env : Env) (h : Heap) (fuel p : Nat) (level : LogControlID)
    (body : Run) : Run :=
  match isLevelEnabled env.lv h fuel p level with
  | Res.ok true => body
  | Res.ok false => Run.skip
  | Res.fault f => { trace := [], result := some f }

/-! ## The logging calls

Overloads of one C++ name are told apart by a suffix: `Format` for the
`const char*, ...` overload, `Message` for `const std::string&`, `Bf` for
`const boost::format&`, `Index` when an index is passed. Every one of them is
declared `throw()`. -/

/-- Source: `Logger::log(level, stringFormat, ...)`. -/
def logFormat (env : Env) (h : Heap) (fuel p : Nat) (level : LogControlID)
    (stringFormat : String) (args : List String) : Run :=
  Run.nothrow
    (ifLevelEnabled env h fuel p level
      (logUnconditionally env h fuel p level stringFormat (some args)))

/-- Source: `Logger::log(level, index, stringFormat, ...)`. -/
def logIndexFormat (env : Env) (h : Heap) (fuel p : Nat) (level : LogControlID)
    (index : Nat) (stringFormat : String) (args : List String) : Run :=
  Run.nothrow
    (ifLevelEnabled env h fuel p level
      (logUnconditionallyIndex env h fuel p level index stringFormat (some args)))

/-- Source: `Logger::log(level, bf)`. -/
def logBf (env : Env) (h : Heap) (fuel p : Nat) (level : LogControlID)
    (bf : BoostFormat) : Run :=
  Run.nothrow
    (ifLevelEnabled env h fuel p level
      (dispatchPlain env h fuel p bf.str level false 0 env.now))

/-- Source: `Logger::log(level, index, bf)`. -/
def logIndexBf (env : Env) (h : Heap) (fuel p : Nat) (level : LogControlID)
    (index : Nat) (bf : BoostFormat) : Run :=
  Run.nothrow
    (ifLevelEnabled env h fuel p level
      (dispatchPlain env h fuel p bf.str level true index env.now))

/-- Source: `Logger::logva(level, stringFormat, va)`. -/
def logva (env : Env) (h : Heap) (fuel p : Nat) (level : LogControlID)
    (stringFormat : String) (va : va_list) : Run :=
  Run.nothrow
    (ifLevelEnabled env h fuel p level
      (logUnconditionally env h fuel p level stringFormat va))

/-- Source: `Logger::logva(level, index, stringFormat, va)`. -/
def logvaIndex (env : Env) (h : Heap) (fuel p : Nat) (level : LogControlID)
    (index : Nat) (stringFormat : String) (va : va_list) : Run :=
  Run.nothrow
    (ifLevelEnabled env h fuel p level
      (logUnconditionallyIndex env h fuel p level index stringFormat va))

/-- Source: `Logger::logvaNoTime(level, stringFormat, va)`. -/
def logvaNoTime (env : Env) (h : Heap) (fuel p : Nat) (level : LogControlID)
    (stringFormat : String) (va : va_list) : Run :=
  Run.nothrow
    (ifLevelEnabled env h fuel p level
      (logUnconditionallyNoTime env h fuel p level stringFormat va))

/-- Source: `Logger::log(level, message)`. -/
def logMessage (env : Env) (h : Heap) (fuel p : Nat) (level : LogControlID)
    (message : String) : Run :=
  Run.nothrow
    (ifLevelEnabled env h fuel p level
      (dispatchPlain env h fuel p message level false 0 env.now))

/-- Source: `Logger::log(level, index, message)`. -/
def logIndexMessage (env : Env) (h : Heap) (fuel p : Nat) (level : LogControlID)
    (index : Nat) (message : String) : Run :=
  Run.nothrow
    (ifLevelEnabled env h fuel p level
      (dispatchPlain env h fuel p message level true index env.now))

/-- Source: `Logger::logNoTime(level, message)`. -/
def logNoTime (env : Env) (h : Heap) (fuel p : Nat) (level : LogControlID)
    (message : String) : Run :=
  Run.nothrow
    (ifLevelEnabled env h fuel p level
      (logUnconditionallyNoTime env h fuel p level message none))

/-- Source: `Logger::debug(stringFormat, ...)`. -/
def debugFormat (env : Env) (h : Heap) (fuel p : Nat) (stringFormat : String)
    (args : List String) : Run :=
  Run.nothrow
    (ifLevelEnabled env h fuel p env.lv.DBG
      (logUnconditionally env h fuel p env.lv.DBG stringFormat (some args)))

/-- Source: `Logger::debug(message)`. -/
def debugMessage (env : Env) (h : Heap) (fuel p : Nat) (message : String) : Run :=
  Run.nothrow
    (ifLevelEnabled env h fuel p env.lv.DBG
      (dispatchPlain env h fuel p message env.lv.DBG false 0 env.now))

/-- Source: `Logger::info(stringFormat, ...)`: the whole body is commented out in the
source. -/
def infoFormat (_env : Env) (_h : Heap) (_fuel _p : Nat) (_stringFormat : String)
    (_args : List String) : Run :=
  Run.skip

/-- Source: `Logger::info(message)`. -/
def infoMessage (env : Env) (h : Heap) (fuel p : Nat) (message : String) : Run :=
  Run.nothrow
    (ifLevelEnabled env h fuel p env.lv.INFO
      (dispatchPlain env h fuel p message env.lv.INFO false 0 env.now))

/-- Source: `Logger::warn(stringFormat, ...)`. -/
def warnFormat (env : Env) (h : Heap) (fuel p : Nat) (stringFormat : String)
    (args : List String) : Run :=
  Run.nothrow
    (ifLevelEnabled env h fuel p env.lv.WARN
      (logUnconditionally env h fuel p env.lv.WARN stringFormat (some args)))

/-- Source: `Logger::warn(message)`. -/
def warnMessage (env : Env) (h : Heap) (fuel p : Nat) (message : String) : Run :=
  Run.nothrow
    (ifLevelEnabled env h fuel p env.lv.WARN
      (dispatchPlain env h fuel p message env.lv.WARN false 0 env.now))

/-- Source: `Logger::error(stringFormat, ...)`. -/
def errorFormat (env : Env) (h : Heap) (fuel p : Nat) (stringFormat : String)
    (args : List String) : Run :=
  Run.nothrow
    (ifLevelEnabled env h fuel p env.lv.ERR
      (logUnconditionally env h fuel p env.lv.ERR stringFormat (some args)))

/-- Source: `Logger::error(message)`. -/
def errorMessage (env : Env) (h : Heap) (fuel p : Nat) (message : String) : Run :=
  Run.nothrow
    (ifLevelEnabled env h fuel p env.lv.ERR
      (dispatchPlain env h fuel p message env.lv.ERR false 0 env.now))

/-- Source: `Logger::alert(stringFormat, ...)`. -/
def alertFormat (env : Env) (h : Heap) (fuel p : Nat) (stringFormat : String)
    (args : List String) : Run :=
  Run.nothrow
    (ifLevelEnabled env h fuel p env.lv.ALERT
      (logUnconditionally env h fuel p env.lv.ALERT stringFormat (some args)))

/-- Source: `Logger::alert(message)`. -/
def alertMessage (env : Env) (h : Heap) (fuel p : Nat) (message : String) : Run :=
  Run.nothrow
    (ifLevelEnabled env h fuel p env.lv.ALERT
      (dispatchPlain env h fuel p message env.lv.ALERT false 0 env.now))

/-- Source: `Logger::fatal(stringFormat, ...)`. -/
def fatalFormat (env : Env) (h : Heap) (fuel p : Nat) (stringFormat : String)
    (args : List String) : Run :=
  Run.nothrow
    (ifLevelEnabled env h fuel p env.lv.FATAL
      (logUnconditionally env h fuel p env.lv.FATAL stringFormat (some args)))

/-- Source: `Logger::fatal(message)`. -/
def fatalMessage (env : Env) (h : Heap) (fuel p : Nat) (message : String) : Run :=
  Run.nothrow
    (ifLevelEnabled env h fuel p env.lv.FATAL
      (dispatchPlain env h fuel p message env.lv.FATAL false 0 env.now))

/-- One logging call with its arguments: every logging entry point of
`Logger.cpp`. -/
inductive Call where
  | logFormat (level : LogControlID) (stringFormat : String) (args : List String)
  | logIndexFormat (level : LogControlID) (index : Nat) (stringFormat : String)
      (args : List String)
  | logBf (level : LogControlID) (bf : BoostFormat)
  | logIndexBf (level : LogControlID) (index : Nat) (bf : BoostFormat)
  | logva (level : LogControlID) (stringFormat : String) (va : va_list)
  | logvaIndex (level : LogControlID) (index : Nat) (stringFormat : String) (va : va_list)
  | logvaNoTime (level : LogControlID) (stringFormat : String) (va : va_list)
  | logMessage (level : LogControlID) (message : String)
  | logIndexMessage (level : LogControlID) (index : Nat) (message : String)
  | logNoTime (level : LogControlID) (message : String)
  | debugFormat (stringFormat : String) (args : List String)
  | debugMessage (message : String)
  | infoFormat (stringFormat : String) (args : List String)
  | infoMessage (message : String)
  | warnFormat (stringFormat : String) (args : List String)
  | warnMessage (message : String)
  | errorFormat (stringFormat : String) (args : List String)
  | errorMessage (message : String)
  | alertFormat (stringFormat : String) (args : List String)
  | alertMessage (message : String)
  | fatalFormat (stringFormat : String) (args : List String)
  | fatalMessage (message : String)
  deriving DecidableEq, Repr

/-- The level a call logs at: its `level` argument, or the constant of the
function's name. -/
def Call.level (env : Env) : Call → LogControlID
  | Call.logFormat level _ _ => level
  | Call.logIndexFormat level _ _ _ => level
  | Call.logBf level _ => level
  | Call.logIndexBf level _ _ => level
  | Call.logva level _ _ => level
  | Call.logvaIndex level _ _ _ => level
  | Call.logvaNoTime level _ _ => level
  | Call.logMessage level _ => level
  | Call.logIndexMessage level _ _ => level
  | Call.logNoTime level _ => level
  | Call.debugFormat _ _ => env.lv.DBG
  | Call.debugMessage _ => env.lv.DBG
  | Call.infoFormat _ _ => env.lv.INFO
  | Call.infoMessage _ => env.lv.INFO
  | Call.warnFormat _ _ => env.lv.WARN
  | Call.warnMessage _ => env.lv.WARN
  | Call.errorFormat _ _ => env.lv.ERR
  | Call.errorMessage _ => env.lv.ERR
  | Call.alertFormat _ _ => env.lv.ALERT
  | Call.alertMessage _ => env.lv.ALERT
  | Call.fatalFormat _ _ => env.lv.FATAL
  | Call.fatalMessage _ => env.lv.FATAL

/-- Running a call on the logger at address `p`. -/
def Call.run (env : Env) (h : Heap) (fuel p : Nat) : Call → Run
  | Call.logFormat level f a => cacti.logFormat env h fuel p level f a
  | Call.logIndexFormat level i f a => cacti.logIndexFormat env h fuel p level i f a
  | Call.logBf level bf => cacti.logBf env h fuel p level bf
  | Call.logIndexBf level i bf => cacti.logIndexBf env h fuel p level i bf
  | Call.logva level f va => cacti.logva env h fuel p level f va
  | Call.logvaIndex level i f va => cacti.logvaIndex env h fuel p level i f va
  | Call.logvaNoTime level f va => cacti.logvaNoTime env h fuel p level f va
  | Call.logMessage level m => cacti.logMessage env h fuel p level m
  | Call.logIndexMessage level i m => cacti.logIndexMessage env h fuel p level i m
  | Call.logNoTime level m => cacti.logNoTime env h fuel p level m
  | Call.debugFormat f a => cacti.debugFormat env h fuel p f a
  | Call.debugMessage m => cacti.debugMessage env h fuel p m
  | Call.infoFormat f a => cacti.infoFormat env h fuel p f a
  | Call.infoMessage m => cacti.infoMessage env h fuel p m
  | Call.warnFormat f a => cacti.warnFormat env h fuel p f a
  | Call.warnMessage m => cacti.warnMessage env h fuel p m
  | Call.errorFormat f a => cacti.errorFormat env h fuel p f a
  | Call.errorMessage m => cacti.errorMessage env h fuel p m
  | Call.alertFormat f a => cacti.alertFormat env h fuel p f a
  | Call.alertMessage m => cacti.alertMessage env h fuel p m
  | Call.fatalFormat f a => cacti.fatalFormat env h fuel p f a
  | Call.fatalMessage m => cacti.fatalMessage env h fuel p m

/-- A sequence of `setLevel` calls, each given by the address of the logger and
the level; a call that throws leaves the heap as it was and the caller goes
on. -/
def setLevels (lv : LogLevel) (h : Heap) : List (Nat × LogControlID) → Heap
  | [] => h
  | c :: cs => setLevels lv (setLevel lv h c.1 c.2).1 cs

/-! ## Handler management -/

/-- Source: `std::find(m_handlers.begin(), m_handlers.end(), handler)`: the
position of the first entry identical to `handler`, `none` for `end()`. -/
def stdFind : List Nat → Nat → Option Nat
  | [], _ => none
  | y :: ys, x => if y = x then some 0 else (stdFind ys x).map (fun i => i + 1)

/-- Source: `Logger::addHandler` on the logger at address `p`: the new heap and
the exception raised, if any. A null handler throws before the list is
touched. -/
def addHandler (h : Heap) (p : Nat) (handler : LogHandlerPtr) : Heap × Option Exception :=
  match handler with
  | some x =>
    match stdFind (h p).m_handlers x with
    | none => (Function.update h p { h p with m_handlers := (h p).m_handlers ++ [x] }, none)
    | some _ => (h, none)
  | none => (h, some (Exception.invalid_argument "NULL handler"))

/-- Source: `Logger::getAllHandlers`: a copy of the list. -/
def getAllHandlers (h : Heap) (p : Nat) : List Nat := (h p).m_handlers

/-- The loop of `Logger::getHandler` over the list: the first entry whose
`getName()` equals `name`, the null pointer when the end is reached. -/
def getHandlerLoop (env : Env) (name : String) : List Nat → LogHandlerPtr
  | [] => none
  | x :: xs => if (env.handler x).getName = name then some x else getHandlerLoop env name xs

/-- Source: `Logger::getHandler(name)` on the logger at address `p`. -/
def getHandler (env : Env) (h : Heap) (p : Nat) (name : String) : LogHandlerPtr :=
  getHandlerLoop env name (h p).m_handlers

/-- Source: `Logger::removeAllHandlers` on the logger at address `p`. -/
def removeAllHandlers (h : Heap) (p : Nat) : Heap :=
  Function.update h p { h p with m_handlers := [] }

/-- Source: `Logger::removeHandler(handler)` on the logger at address `p`: the
new heap and the exception raised; the function has no `throw`. -/
def removeHandler (h : Heap) (p : Nat) (handler : LogHandlerPtr) : Heap × Option Exception :=
  match handler with
  | some x =>
    match stdFind (h p).m_handlers x with
    | some i =>
      (Function.update h p { h p with m_handlers := (h p).m_handlers.eraseIdx i }, none)
    | none => (h, none)
  | none => (h, none)

/-- Source: `Logger::removeHandler(name)` on the logger at address `p`:
`removeHandler(getHandler(name))`. -/
def removeHandlerByName (env : Env) (h : Heap) (p : Nat) (name : String) :
    Heap × Option Exception :=
  removeHandler h p (getHandler env h p name)

/-- One call that changes the handler list of a logger. -/
inductive HandlerOp where
  | addHandler (handler : LogHandlerPtr)
  | removeHandler (handler : LogHandlerPtr)
  | removeHandlerByName (name : String)
  | removeAllHandlers
  deriving DecidableEq, Repr

/-- Running one call on the logger at address `p`; a call that throws leaves
the heap as it was. -/
def HandlerOp.run (env : Env) (h : Heap) (p : Nat) : HandlerOp → Heap
  | HandlerOp.addHandler handler => (cacti.addHandler h p handler).1
  | HandlerOp.removeHandler handler => (cacti.removeHandler h p handler).1
  | HandlerOp.removeHandlerByName name => (cacti.removeHandlerByName env h p name).1
  | HandlerOp.removeAllHandlers => cacti.removeAllHandlers h p

/-- Running a sequence of calls on the logger at address `p`, first call
first. -/
def runHandlerOps (env : Env) (h : Heap) (p : Nat) : List HandlerOp → Heap
  | [] => h
  | op :: ops => runHandlerOps env (op.run env h p) p ops

/-! ## Specification-side descriptions -/

/-- The spec's `effectiveLevel` over the levels met on the way up (the logger
itself first): the first level that is not `NOTSET`. -/
def firstSetLevel (lv : LogLevel) (h : Heap) (ps : List Nat) : Option LogControlID :=
  (ps.map (fun q => (h q).m_level)).find? (fun l => decide (l ≠ lv.NOTSET))

/-- The `publish` invocations made by the logger at `via` on the handlers
`hs`, in list order, when none of them raises. -/
def publishes (via : Nat) (rec : LogRecord) (hs : List Nat) : List Event :=
  hs.map (fun x => Event.publish via x rec)

/-- The `publish` invocations of the loggers `qs` one after the other, each on
its own handler list. -/
def publishesOver (h : Heap) (rec : LogRecord) : List Nat → List Event
  | [] => []
  | q :: qs => publishes q rec (h q).m_handlers ++ publishesOver h rec qs

/-- The handler loops of the loggers `qs` one after the other; a handler that
raises ends the whole pass, and the process with it. -/
def dispatchOver (env : Env) (h : Heap) (rec : LogRecord) : List Nat → Run
  | [] => Run.skip
  | q :: qs =>
    Run.nothrow
      (Run.seq (publishLoop env q rec (h q).m_handlers) (dispatchOver env h rec qs))

/-- The relation `Reaches h p qs`: propagation started at `p` visits exactly `qs`: every
logger but the last is additive and has a parent, and the last one is not
additive or has no parent. -/
inductive Reaches (h : Heap) : Nat → List Nat → Prop where
  | stop (p : Nat) : ((h p).m_isAdditive = false ∨ (h p).m_parent = none) → Reaches h p [p]
  | up (p q : Nat) (qs : List Nat) :
      (h p).m_isAdditive = true → (h p).m_parent = some q → Reaches h q qs →
      Reaches h p (p :: qs)

/-- The arguments of a call to a C-format entry point that goes through
`logUnconditionally`: the format, the argument list, and the index when one is
passed. `none` for every other entry point. -/
def Call.cformat : Call → Option (String × va_list × Option Nat)
  | Call.logFormat _ f a => some (f, some a, none)
  | Call.logIndexFormat _ i f a => some (f, some a, some i)
  | Call.logva _ f va => some (f, va, none)
  | Call.logvaIndex _ i f va => some (f, va, some i)
  | Call.debugFormat f a => some (f, some a, none)
  | Call.warnFormat f a => some (f, some a, none)
  | Call.errorFormat f a => some (f, some a, none)
  | Call.alertFormat f a => some (f, some a, none)
  | Call.fatalFormat f a => some (f, some a, none)
  | _ => none

/-- The record a C-format call first tries to dispatch, once the message is
formatted. -/
def formattedRecord (env : Env) (h : Heap) (p : Nat) (message : String)
    (level : LogControlID) (index : Option Nat) : LogRecord :=
  { loggerName := (h p).m_name, message := message, level := level,
    hasIndex := index.isSome, index := index.getD 0, timestamp := env.now }

/-- The substitute record the spec describes: the logger's name, level `FATAL`,
the index when one was supplied; its message is the unformatted format. -/
def fatalSubstitute (env : Env) (h : Heap) (p : Nat) (format : String)
    (index : Option Nat) : LogRecord :=
  { loggerName := (h p).m_name, message := format, level := env.lv.FATAL,
    hasIndex := index.isSome, index := index.getD 0, timestamp := env.now }

/-- The relation `InsertedAt env h p ops x t`: call number `t` of the sequence
`ops` (counted from 0) is `addHandler(x)`, the handler `x` was not in the list
of the logger at `p` before that call, and it has been in the list after that
call and after every later call of the sequence. -/
def InsertedAt (env : Env) (h : Heap) (p : Nat) (ops : List HandlerOp) (x t : Nat) : Prop :=
  ops[t]? = some (HandlerOp.addHandler (some x)) ∧
  x ∉ ((runHandlerOps env h p (ops.take t)) p).m_handlers ∧
  ∀ k, t < k → k ≤ ops.length → x ∈ ((runHandlerOps env h p (ops.take k)) p).m_handlers

/-- Whether an event is a `publish` invocation. -/
def Event.isPublish : Event → Bool
  | Event.publish _ _ _ => true
  | Event.newRecord _ => false

/-- The severity order `DBG < INFO < WARN < ERR < ALERT < FATAL` with `NOTSET`
below `DBG`, in the encoding `Logger.cpp` compares: a more severe level has a
smaller code and `NOTSET` has the greatest code, so that `level < NOTSET` is
the test for a level that is set and `getChainedLevel() >= level` lets the
more severe levels through. -/
abbrev LogLevel.SeverityDescending (lv : LogLevel) : Prop :=
  lv.FATAL < lv.ALERT ∧ lv.ALERT < lv.ERR ∧ lv.ERR < lv.WARN ∧ lv.WARN < lv.INFO ∧
    lv.INFO < lv.DBG ∧ lv.DBG < lv.NOTSET

/-! ## Sample data -/

/-- A table of level codes in which a more severe level has a smaller code and
`NOTSET` has the greatest one. -/
def sampleLevels : LogLevel :=
  { FATAL := 0, ALERT := 100, ERR := 300, WARN := 400, INFO := 600, DBG := 700,
    NOTSET := 800 }

/-- The scenario heap: the root at address 0 with level `WARN`, its child
"svc" at address 1 with level `NOTSET`, additive, and "svc.db" at address 2,
child of "svc", additive, level `NOTSET`; handler 7 is attached to the root
and to "svc", handlers 8 and 9 to "svc.db". Every other address holds a
parentless logger. -/
def scenarioHeap (lv : LogLevel) : Heap := fun p =>
  match p with
  | 1 => { m_name := "svc", m_parent := some 0, m_level := lv.NOTSET, m_isAdditive := true,
           m_handlers := [7] }
  | 2 => { m_name := "svc.db", m_parent := some 1, m_level := lv.NOTSET,
           m_isAdditive := true, m_handlers := [8, 9] }
  | _ => { m_name := "", m_parent := none, m_level := lv.WARN, m_isAdditive := false,
           m_handlers := [7] }

/-- Handlers that always return from `publish`. -/
def quietHandlers : Nat → LogHandler := fun n =>
  { getName := toString n, publish := fun _ => true }

/-- Handlers that raise on every `publish`. -/
def raisingHandlers : Nat → LogHandler := fun n =>
  { getName := toString n, publish := fun _ => false }

/-- A formatter that returns the format unchanged when there are no arguments to
insert and raises otherwise. -/
def plainFormatter : String → va_list → Option String := fun f va =>
  match va with
  | some [] => some f
  | _ => none

/-- A release build with quiet handlers. -/
def sampleEnv (lv : LogLevel) : Env :=
  { lv := lv, handler := quietHandlers, vformat := plainFormatter,
    now := { sec := 1, usec := 0 }, debugBuild := false }

/-- A release build in which every handler raises. -/
def raisingEnv (lv : LogLevel) : Env :=
  { lv := lv, handler := raisingHandlers, vformat := plainFormatter,
    now := { sec := 1, usec := 0 }, debugBuild := false }

/-- The scenario heap after `setAdditivity(false)` on "svc". -/
def isolatedHeap (lv : LogLevel) : Heap := setAdditivity (scenarioHeap lv) 1 false

/-- A record to dispatch in the examples. -/
def sampleRecord : LogRecord :=
  { loggerName := "svc.db", message := "m", level := 300, hasIndex := false, index := 0,
    timestamp := { sec := 1, usec := 0 } }

/-- The scenario heap with level `DBG` set on "svc.db". -/
def verboseHeap (lv : LogLevel) : Heap :=
  Function.update (scenarioHeap lv) 2 { scenarioHeap lv 2 with m_level := lv.DBG }

/-- Handlers that report "even" or "odd" as their name, by the parity of their
address. -/
def parityHandlers : Nat → LogHandler := fun n =>
  { getName := if n % 2 = 0 then "even" else "odd", publish := fun _ => true }

/-- A release build with the handlers named by parity. -/
def parityEnv (lv : LogLevel) : Env :=
  { lv := lv, handler := parityHandlers, vformat := plainFormatter,
    now := { sec := 1, usec := 0 }, debugBuild := false }

/-- The scenario heap with handlers 7, 8, 9, 10 on "svc", in that order. -/
def crowdedHeap (lv : LogLevel) : Heap :=
  Function.update (scenarioHeap lv) 1 { scenarioHeap lv 1 with m_handlers := [7, 8, 9, 10] }

/-- The scenario heap after `removeAllHandlers` on "svc". -/
def bareHeap (lv : LogLevel) : Heap := removeAllHandlers (scenarioHeap lv) 1

/-- A sequence of calls on one handler list: two handlers added, one of them
added again, removed and added once more, then a removal by a name that no
handler has and a null handler. -/
def sampleOps : List HandlerOp :=
  [HandlerOp.addHandler (some 7), HandlerOp.addHandler (some 8),
   HandlerOp.addHandler (some 7), HandlerOp.removeHandler (some 7),
   HandlerOp.addHandler (some 7), HandlerOp.removeHandlerByName "none",
   HandlerOp.addHandler none]

/-- A heap whose root, at address 0, has level `ERR` and handler 7, and whose
logger "svc", at address 1, is an additive child of the root with level `DBG`
and handler 8. -/
def strictRootHeap (lv : LogLevel) : Heap := fun p =>
  match p with
  | 1 => { m_name := "svc", m_parent := some 0, m_level := lv.DBG, m_isAdditive := true,
           m_handlers := [8] }
  | _ => { m_name := "", m_parent := none, m_level := lv.ERR, m_isAdditive := false,
           m_handlers := [7] }

/-! # Theorems -/

theorem Chain.head_eq {h : Heap} {p : Nat} {ps : List Nat} (hc : Chain h p ps) :
    ∃ qs, ps = p :: qs := by
  cases hc with
  | root _ _ => exact ⟨[], rfl⟩
  | step _ q qs _ _ => exact ⟨qs, rfl⟩

theorem Chain.functional {h : Heap} {p : Nat} {ps : List Nat} (hc : Chain h p ps) :
    ∀ qs, Chain h p qs → ps = qs := by
  induction hc with
  | root p hp =>
    intro qs hq
    cases hq with
    | root _ _ => rfl
    | step _ q qs hpq _ => rw [hp] at hpq; cases hpq
  | step p q ps hpq _ ih =>
    intro qs hq
    cases hq with
    | root _ hp => rw [hp] at hpq; cases hpq
    | step _ q2 qs2 hpq2 hc2 =>
      rw [hpq] at hpq2
      cases hpq2
      rw [ih qs2 hc2]

theorem Chain.suffix_of_mem {h : Heap} {p : Nat} {ps : List Nat} (hc : Chain h p ps) :
    ∀ q ∈ ps, ∃ qs, Chain h q qs ∧ qs.length ≤ ps.length := by
  induction hc with
  | root p hp =>
    intro q hq
    simp at hq
    subst hq
    exact ⟨[q], Chain.root q hp, le_refl _⟩
  | step p q ps hpq hc ih =>
    intro x hx
    rcases List.mem_cons.mp hx with hxp | hxps
    · subst hxp
      exact ⟨x :: ps, Chain.step x q ps hpq hc, le_refl _⟩
    · obtain ⟨qs, hqs, hlen⟩ := ih x hxps
      exact ⟨qs, hqs, by simp; omega⟩

theorem Chain.nodup {h : Heap} {p : Nat} {ps : List Nat} (hc : Chain h p ps) :
    ps.Nodup := by
  induction hc with
  | root p _ => simp
  | step p q ps hpq hc ih =>
    refine List.nodup_cons.mpr ⟨?_, ih⟩
    intro hmem
    obtain ⟨qs, hqs, hlen⟩ := Chain.suffix_of_mem hc p hmem
    have := Chain.functional (Chain.step p q ps hpq hc) qs hqs
    subst this
    simp at hlen

/-! ## Level resolution -/

theorem scenarioHeap_chain (lv : LogLevel) : Chain (scenarioHeap lv) 2 [2, 1, 0] :=
  Chain.step 2 1 [1, 0] rfl (Chain.step 1 0 [0] rfl (Chain.root 0 rfl))

/-- C1: on a parent chain `ps` that ends at a root whose level is not `NOTSET`
(no level on the chain lying above `NOTSET`), with fuel for every logger of the
chain, `getChainedLevel` returns a level `v`; `v` is the first level on the way
up that is not `NOTSET`, and it is the root's level when every logger below the
root has level `NOTSET`. -/
theorem getChainedLevel_first_set (lv : LogLevel) (h : Heap) (fuel p : Nat) (ps : List Nat)
    (hchain : Chain h p ps)
    (hrange : ∀ q ∈ ps, (h q).m_level ≤ lv.NOTSET)
    (hroot : ∀ r ∈ ps, (h r).m_parent = none → (h r).m_level ≠ lv.NOTSET)
    (hfuel : ps.length ≤ fuel) :
    ∃ v, getChainedLevel lv h fuel (some p) = Res.ok v ∧
      firstSetLevel lv h ps = some v ∧
      ((∀ q ∈ ps, (h q).m_parent ≠ none → (h q).m_level = lv.NOTSET) →
        ∀ r ∈ ps, (h r).m_parent = none → v = (h r).m_level) := by
  induction hchain generalizing fuel with
  | root p hp =>
    obtain ⟨f, rfl⟩ : ∃ f, fuel = f + 1 := ⟨fuel - 1, by simp at hfuel; omega⟩
    have hne : (h p).m_level ≠ lv.NOTSET := hroot p (by simp) hp
    have hle : (h p).m_level ≤ lv.NOTSET := hrange p (by simp)
    have hlt : ¬ (h p).m_level ≥ lv.NOTSET := by
      intro hge
      exact hne (le_antisymm hle hge)
    refine ⟨(h p).m_level, ?_, ?_, ?_⟩
    · simp only [getChainedLevel, Logger.getLevel]
      rw [if_neg hlt]
    · simp [firstSetLevel, hne]
    · intro _ r hr _
      simp at hr
      rw [hr]
  | step p q ps hpq hc ih =>
    obtain ⟨f, rfl⟩ : ∃ f, fuel = f + 1 := ⟨fuel - 1, by simp at hfuel; omega⟩
    have hle : (h p).m_level ≤ lv.NOTSET := hrange p (by simp)
    obtain ⟨v, hv, hfirst, hall⟩ := ih f
      (fun x hx => hrange x (List.mem_cons_of_mem _ hx))
      (fun x hx => hroot x (List.mem_cons_of_mem _ hx))
      (by simp at hfuel; omega)
    by_cases hge : (h p).m_level ≥ lv.NOTSET
    · have heq : (h p).m_level = lv.NOTSET := le_antisymm hle hge
      refine ⟨v, ?_, ?_, ?_⟩
      · simp only [getChainedLevel, Logger.getLevel, Logger.getParent]
        rw [if_pos hge, hpq]
        exact hv
      · simpa [firstSetLevel, heq] using hfirst
      · intro hbelow r hr hrp
        rcases List.mem_cons.mp hr with hrp2 | hrps
        · subst hrp2
          rw [hpq] at hrp
          cases hrp
        · exact hall (fun x hx => hbelow x (List.mem_cons_of_mem _ hx)) r hrps hrp
    · have hne : (h p).m_level ≠ lv.NOTSET := fun heq => hge (by rw [heq])
      refine ⟨(h p).m_level, ?_, ?_, ?_⟩
      · simp only [getChainedLevel, Logger.getLevel]
        rw [if_neg hge]
      · simp [firstSetLevel, hne]
      · intro hbelow r _ _
        exact absurd (hbelow p (by simp) (by rw [hpq]; simp)) hne

/-- Witness of C1 on the scenario heap: "svc.db" and "svc" have level `NOTSET`,
the root has `WARN`. -/
theorem getChainedLevel_first_set_witness :
    Chain (scenarioHeap sampleLevels) 2 [2, 1, 0] ∧
    (∀ q ∈ [2, 1, 0], ((scenarioHeap sampleLevels) q).m_level ≤ sampleLevels.NOTSET) ∧
    (∀ r ∈ [2, 1, 0], ((scenarioHeap sampleLevels) r).m_parent = none →
      ((scenarioHeap sampleLevels) r).m_level ≠ sampleLevels.NOTSET) ∧
    [2, 1, 0].length ≤ 3 ∧
    ∃ v, getChainedLevel sampleLevels (scenarioHeap sampleLevels) 3 (some 2) = Res.ok v ∧
      firstSetLevel sampleLevels (scenarioHeap sampleLevels) [2, 1, 0] = some v ∧
      ((∀ q ∈ [2, 1, 0], ((scenarioHeap sampleLevels) q).m_parent ≠ none →
          ((scenarioHeap sampleLevels) q).m_level = sampleLevels.NOTSET) →
        ∀ r ∈ [2, 1, 0], ((scenarioHeap sampleLevels) r).m_parent = none →
          v = ((scenarioHeap sampleLevels) r).m_level) :=
  ⟨scenarioHeap_chain sampleLevels, by decide, by decide, by decide,
   getChainedLevel_first_set sampleLevels (scenarioHeap sampleLevels) 3 2 [2, 1, 0]
     (scenarioHeap_chain sampleLevels) (by decide) (by decide) (by decide)⟩

theorem getChainedLevel_succ (lv : LogLevel) (h : Heap) (fuel c : Nat) :
    getChainedLevel lv h (fuel + 1) (some c) =
      if (h c).m_level ≥ lv.NOTSET then getChainedLevel lv h fuel (h c).m_parent
      else Res.ok (h c).m_level := rfl

theorem getChainedLevel_null (lv : LogLevel) (h : Heap) (fuel : Nat) :
    getChainedLevel lv h fuel none = Res.fault Fault.nullDeref := by
  cases fuel <;> rfl

theorem callHandlers_succ (env : Env) (h : Heap) (rec : LogRecord) (fuel p : Nat) :
    callHandlers env h rec (fuel + 1) p =
      Run.nothrow
        (Run.seq
          (if !(h p).m_handlers.isEmpty then publishLoop env p rec (h p).m_handlers
           else Run.skip)
          (match (h p).m_isAdditive, (h p).m_parent with
           | true, some q => callHandlers env h rec fuel q
           | _, _ => Run.skip)) := rfl

theorem Run.nothrow_returned (t : List Event) :
    Run.nothrow { trace := t, result := none } = { trace := t, result := none } := rfl

theorem Run.nothrow_trace (r : Run) : (Run.nothrow r).trace = r.trace := by
  cases r with
  | mk t res =>
    cases res with
    | none => rfl
    | some f => cases f <;> rfl

theorem Run.nothrow_result_ne (r : Run) : (Run.nothrow r).result ≠ some Fault.exception := by
  cases r with
  | mk t res =>
    cases res with
    | none => simp [Run.nothrow]
    | some f => cases f <;> simp [Run.nothrow]

theorem Run.nothrow_of_ne (r : Run) (hr : r.result ≠ some Fault.exception) :
    Run.nothrow r = r := by
  cases r with
  | mk t res =>
    cases res with
    | none => rfl
    | some f =>
      cases f with
      | exception => exact absurd rfl hr
      | terminate => rfl
      | nullDeref => rfl
      | outOfFuel => rfl

theorem callHandlers_result_ne (env : Env) (h : Heap) (rec : LogRecord) (fuel p : Nat) :
    (callHandlers env h rec fuel p).result ≠ some Fault.exception := by
  cases fuel with
  | zero => simp [callHandlers]
  | succ f =>
    rw [callHandlers_succ]
    exact Run.nothrow_result_ne _

/-! ## The scenario of the spec -/

/-- C2: the concrete scenario, with the severity order
`DBG < INFO < WARN < ERR < ALERT < FATAL` and `NOTSET` below `DBG` in the
encoding the code compares (`SeverityDescending`): a root with level `WARN` and
an additive child "svc" with level `NOTSET`, both holding the one handler `H`,
which returns from `publish`. Then `info("x")` on "svc" builds no record and
invokes nothing, and `error("y")` on "svc" builds one record with level `ERR`
and message "y" and invokes `H.publish` on it exactly twice, first through
"svc" and then through the root. -/
theorem scenario_info_silent_error_twice (env : Env) (h : Heap) (fuel root svc H : Nat)
    (horder : env.lv.SeverityDescending)
    (hrootParent : (h root).m_parent = none)
    (hrootLevel : (h root).m_level = env.lv.WARN)
    (hrootHandlers : (h root).m_handlers = [H])
    (hsvcParent : (h svc).m_parent = some root)
    (hsvcLevel : (h svc).m_level = env.lv.NOTSET)
    (hsvcAdditive : (h svc).m_isAdditive = true)
    (hsvcHandlers : (h svc).m_handlers = [H])
    (hquiet : ∀ r, (env.handler H).publish r = true)
    (hfuel : 2 ≤ fuel) :
    infoMessage env h fuel svc "x" = { trace := [], result := none } ∧
    errorMessage env h fuel svc "y" =
      { trace :=
          [Event.newRecord (some { loggerName := (h svc).m_name, message := "y",
                                   level := env.lv.ERR, hasIndex := false, index := 0,
                                   timestamp := env.now }),
           Event.publish svc H { loggerName := (h svc).m_name, message := "y",
                                 level := env.lv.ERR, hasIndex := false, index := 0,
                                 timestamp := env.now },
           Event.publish root H { loggerName := (h svc).m_name, message := "y",
                                  level := env.lv.ERR, hasIndex := false, index := 0,
                                  timestamp := env.now }],
        result := none } := by
  obtain ⟨f, rfl⟩ : ∃ f, fuel = f + 2 := ⟨fuel - 2, by omega⟩
  obtain ⟨_, _, hew, hwi, hid, hdn⟩ := horder
  have hwn : env.lv.WARN < env.lv.NOTSET := lt_trans hwi (lt_trans hid hdn)
  have hchained : getChainedLevel env.lv h (f + 2) (some svc) = Res.ok env.lv.WARN := by
    rw [getChainedLevel_succ, hsvcLevel, if_pos (le_refl _), hsvcParent,
      getChainedLevel_succ, hrootLevel, if_neg (not_le.mpr hwn)]
  constructor
  · simp only [infoMessage, ifLevelEnabled, isLevelEnabled, hchained]
    rw [show decide (env.lv.WARN ≥ env.lv.INFO) = false from
      decide_eq_false (not_le.mpr hwi)]
    rfl
  · simp only [errorMessage, ifLevelEnabled, isLevelEnabled, hchained]
    rw [show decide (env.lv.WARN ≥ env.lv.ERR) = true from decide_eq_true (le_of_lt hew)]
    simp [dispatchPlain, LogRecord.build, callHandlers_succ, hsvcHandlers, hrootHandlers,
      hsvcAdditive, hsvcParent, hrootParent, publishLoop, hquiet, Run.seq, Run.skip,
      Run.nothrow, Logger.getName]

/-- Witness of C2 on the scenario heap with the sample codes. -/
theorem scenario_info_silent_error_twice_witness :
    sampleLevels.SeverityDescending ∧
    ((scenarioHeap sampleLevels) 0).m_parent = none ∧
    ((scenarioHeap sampleLevels) 0).m_level = sampleLevels.WARN ∧
    ((scenarioHeap sampleLevels) 0).m_handlers = [7] ∧
    ((scenarioHeap sampleLevels) 1).m_parent = some 0 ∧
    ((scenarioHeap sampleLevels) 1).m_level = sampleLevels.NOTSET ∧
    ((scenarioHeap sampleLevels) 1).m_isAdditive = true ∧
    ((scenarioHeap sampleLevels) 1).m_handlers = [7] ∧
    (∀ r, ((sampleEnv sampleLevels).handler 7).publish r = true) ∧
    2 ≤ 2 ∧
    infoMessage (sampleEnv sampleLevels) (scenarioHeap sampleLevels) 2 1 "x" =
      { trace := [], result := none } ∧
    errorMessage (sampleEnv sampleLevels) (scenarioHeap sampleLevels) 2 1 "y" =
      { trace :=
          [Event.newRecord (some { loggerName := "svc", message := "y", level := 300,
                                   hasIndex := false, index := 0,
                                   timestamp := { sec := 1, usec := 0 } }),
           Event.publish 1 7 { loggerName := "svc", message := "y", level := 300,
                               hasIndex := false, index := 0,
                               timestamp := { sec := 1, usec := 0 } },
           Event.publish 0 7 { loggerName := "svc", message := "y", level := 300,
                               hasIndex := false, index := 0,
                               timestamp := { sec := 1, usec := 0 } }],
        result := none } :=
  ⟨by decide, rfl, rfl, rfl, rfl, rfl, rfl, rfl, fun _ => rfl, le_refl 2,
   scenario_info_silent_error_twice (sampleEnv sampleLevels) (scenarioHeap sampleLevels)
     2 0 1 7 (by decide) rfl rfl rfl rfl rfl rfl rfl (fun _ => rfl) (le_refl 2)⟩

/-! ## Dispatch along the chain -/

theorem Run.skip_seq (b : Run) : Run.seq Run.skip b = b := by
  cases b
  simp [Run.seq, Run.skip]

theorem Run.seq_skip (a : Run) : Run.seq a Run.skip = a := by
  cases a with
  | mk t r =>
    cases r <;> simp [Run.seq, Run.skip]

theorem publishLoop_quiet (env : Env) (via : Nat) (rec : LogRecord) (hs : List Nat)
    (hq : ∀ x ∈ hs, (env.handler x).publish rec = true) :
    publishLoop env via rec hs = { trace := publishes via rec hs, result := none } := by
  induction hs with
  | nil => rfl
  | cons x xs ih =>
    have hx : (env.handler x).publish rec = true := hq x (by simp)
    have hxs := ih (fun y hy => hq y (List.mem_cons_of_mem _ hy))
    simp [publishLoop, hx, hxs, Run.seq, publishes]

theorem publishLoop_trace_mem (env : Env) (via : Nat) (rec : LogRecord) (hs : List Nat) :
    ∀ e ∈ (publishLoop env via rec hs).trace, ∃ x ∈ hs, e = Event.publish via x rec := by
  induction hs with
  | nil => intro e he; simp [publishLoop, Run.skip] at he
  | cons x xs ih =>
    intro e he
    by_cases hx : (env.handler x).publish rec = true
    · simp only [publishLoop, hx, if_true, Run.seq] at he
      rcases List.mem_append.mp he with h1 | h2
      · simp at h1
        exact ⟨x, by simp, h1⟩
      · obtain ⟨y, hy, hey⟩ := ih e h2
        exact ⟨y, List.mem_cons_of_mem _ hy, hey⟩
    · simp only [publishLoop, hx] at he
      simp at he
      exact ⟨x, by simp, he⟩

theorem Run.seq_trace_mem (a b : Run) :
    ∀ e ∈ (Run.seq a b).trace, e ∈ a.trace ∨ e ∈ b.trace := by
  intro e he
  cases a with
  | mk t r =>
    cases r with
    | none => simpa [Run.seq] using he
    | some f => left; simpa [Run.seq] using he

theorem dispatchOver_quiet (env : Env) (h : Heap) (rec : LogRecord) (qs : List Nat)
    (hq : ∀ q ∈ qs, ∀ x ∈ (h q).m_handlers, (env.handler x).publish rec = true) :
    dispatchOver env h rec qs = { trace := publishesOver h rec qs, result := none } := by
  induction qs with
  | nil => rfl
  | cons q qs ih =>
    have h1 := publishLoop_quiet env q rec (h q).m_handlers (hq q (by simp))
    have h2 := ih (fun y hy => hq y (List.mem_cons_of_mem _ hy))
    simp [dispatchOver, h1, h2, Run.seq, Run.nothrow, publishesOver]

theorem dispatchOver_trace_mem (env : Env) (h : Heap) (rec : LogRecord) (qs : List Nat) :
    ∀ e ∈ (dispatchOver env h rec qs).trace,
      ∃ q ∈ qs, ∃ x ∈ (h q).m_handlers, e = Event.publish q x rec := by
  induction qs with
  | nil => intro e he; simp [dispatchOver, Run.skip] at he
  | cons q qs ih =>
    intro e he
    simp only [dispatchOver, Run.nothrow_trace] at he
    rcases Run.seq_trace_mem _ _ e he with h1 | h2
    · obtain ⟨x, hx, hex⟩ := publishLoop_trace_mem env q rec _ e h1
      exact ⟨q, by simp, x, hx, hex⟩
    · obtain ⟨q2, hq2, x, hx, hex⟩ := ih e h2
      exact ⟨q2, List.mem_cons_of_mem _ hq2, x, hx, hex⟩

theorem publishLoop_guard (env : Env) (via : Nat) (rec : LogRecord) (hs : List Nat) :
    (if !hs.isEmpty then publishLoop env via rec hs else Run.skip) =
      publishLoop env via rec hs := by
  cases hs <;> simp [publishLoop]

theorem callHandlers_of_reaches (env : Env) (h : Heap) (rec : LogRecord) {p : Nat}
    {qs : List Nat} (hr : Reaches h p qs) :
    ∀ fuel, qs.length ≤ fuel → callHandlers env h rec fuel p = dispatchOver env h rec qs := by
  induction hr with
  | stop p hp =>
    intro fuel hfuel
    obtain ⟨f, rfl⟩ : ∃ f, fuel = f + 1 := ⟨fuel - 1, by simp at hfuel; omega⟩
    rw [callHandlers_succ, publishLoop_guard]
    simp only [dispatchOver, Run.seq_skip]
    rcases hp with hna | hnp
    · rw [hna]; simp [Run.seq_skip]
    · rw [hnp]
      cases (h p).m_isAdditive <;> simp [Run.seq_skip]
  | up p q qs hadd hpq _ ih =>
    intro fuel hfuel
    obtain ⟨f, rfl⟩ : ∃ f, fuel = f + 1 := ⟨fuel - 1, by simp at hfuel; omega⟩
    rw [callHandlers_succ, publishLoop_guard, hadd, hpq]
    simp only [dispatchOver]
    rw [ih f (by simp at hfuel; omega)]

theorem Chain.cons_cons {h : Heap} {p q : Nat} {qs : List Nat}
    (hc : Chain h p (p :: q :: qs)) : (h p).m_parent = some q ∧ Chain h q (q :: qs) := by
  cases hc with
  | step _ q2 ps hpq hc2 =>
    obtain ⟨rest, hrest⟩ := Chain.head_eq hc2
    cases hrest
    exact ⟨hpq, hc2⟩

theorem Chain.singleton {h : Heap} {p : Nat} (hc : Chain h p [p]) :
    (h p).m_parent = none := by
  cases hc with
  | root _ hp => exact hp
  | step _ q ps _ hc2 =>
    obtain ⟨rest, hrest⟩ := Chain.head_eq hc2
    cases hrest

theorem Chain.cons_inv {h : Heap} {p : Nat} {ps : List Nat} (hc : Chain h p (p :: ps))
    (hne : ps ≠ []) : ∃ q, (h p).m_parent = some q ∧ Chain h q ps := by
  generalize hl : p :: ps = l at hc
  cases hc with
  | root _ _ =>
    injection hl with _ h2
    exact absurd h2 hne
  | step _ q qs hpq hc2 =>
    injection hl with _ h2
    subst h2
    exact ⟨q, hpq, hc2⟩

theorem reaches_of_chain_additive {h : Heap} {p : Nat} {ps : List Nat} (hc : Chain h p ps)
    (hadd : ∀ q ∈ ps, (h q).m_parent ≠ none → (h q).m_isAdditive = true) :
    Reaches h p ps := by
  induction hc with
  | root p hp => exact Reaches.stop p (Or.inr hp)
  | step p q ps hpq _ ih =>
    exact Reaches.up p q ps (hadd p (by simp) (by rw [hpq]; simp)) hpq
      (ih (fun x hx => hadd x (List.mem_cons_of_mem _ hx)))

theorem reaches_of_chain_split {h : Heap} (pre : List Nat) :
    ∀ {p s : Nat} {post : List Nat}, Chain h p (pre ++ s :: post) →
      (∀ q ∈ pre, (h q).m_isAdditive = true) → (h s).m_isAdditive = false →
      Reaches h p (pre ++ [s]) := by
  induction pre with
  | nil =>
    intro p s post hc _ hs
    obtain ⟨rest, hrest⟩ := Chain.head_eq hc
    simp at hrest
    obtain ⟨hsp, _⟩ := hrest
    subst hsp
    exact Reaches.stop s (Or.inl hs)
  | cons x pre ih =>
    intro p s post hc hpre hs
    obtain ⟨rest, hrest⟩ := Chain.head_eq hc
    simp at hrest
    obtain ⟨hxp, _⟩ := hrest
    subst hxp
    obtain ⟨q, hpq, hc2⟩ := @Chain.cons_inv h x (pre ++ s :: post) hc (by simp)
    exact Reaches.up x q (pre ++ [s]) (hpre x (by simp)) hpq
      (ih hc2 (fun y hy => hpre y (List.mem_cons_of_mem _ hy)) hs)

/-- C3: on a chain `root -> a -> b` with `a` and `b` additive, `callHandlers` on
`b` runs the handler loop of `b`, then the one of `a`, then the one of the
root, and nothing else; when no handler raises, the `publish` invocations are
exactly those on `handlers(b) ++ handlers(a) ++ handlers(root)`, each list in
insertion order (empty lists included), and the call returns. -/
theorem callHandlers_additive_chain (env : Env) (h : Heap) (rec : LogRecord)
    (fuel root a b : Nat)
    (hchain : Chain h b [b, a, root])
    (hb : (h b).m_isAdditive = true)
    (ha : (h a).m_isAdditive = true)
    (hfuel : 3 ≤ fuel) :
    callHandlers env h rec fuel b = dispatchOver env h rec [b, a, root] ∧
    ((∀ x ∈ (h b).m_handlers ++ (h a).m_handlers ++ (h root).m_handlers,
        (env.handler x).publish rec = true) →
      callHandlers env h rec fuel b =
        { trace := publishes b rec (h b).m_handlers ++ publishes a rec (h a).m_handlers ++
            publishes root rec (h root).m_handlers,
          result := none }) := by
  obtain ⟨hpb, hc1⟩ := Chain.cons_cons hchain
  obtain ⟨hpa, hc2⟩ := Chain.cons_cons hc1
  have hpr := Chain.singleton hc2
  have hreach : Reaches h b [b, a, root] :=
    Reaches.up b a [a, root] hb hpb
      (Reaches.up a root [root] ha hpa (Reaches.stop root (Or.inr hpr)))
  have heq := callHandlers_of_reaches env h rec hreach fuel (by simpa using hfuel)
  refine ⟨heq, ?_⟩
  intro hq
  rw [heq, dispatchOver_quiet env h rec [b, a, root]]
  · simp [publishesOver, List.append_assoc]
  · intro q hqm x hx
    apply hq
    simp at hqm
    rcases hqm with rfl | rfl | rfl <;> simp [hx]

/-- Witness of C3 on the scenario heap: dispatch at "svc.db" (handlers 8, 9),
then "svc" (handler 7), then the root (handler 7). -/
theorem callHandlers_additive_chain_witness :
    Chain (scenarioHeap sampleLevels) 2 [2, 1, 0] ∧
    ((scenarioHeap sampleLevels) 2).m_isAdditive = true ∧
    ((scenarioHeap sampleLevels) 1).m_isAdditive = true ∧
    3 ≤ 3 ∧
    (callHandlers (sampleEnv sampleLevels) (scenarioHeap sampleLevels) sampleRecord 3 2 =
        dispatchOver (sampleEnv sampleLevels) (scenarioHeap sampleLevels) sampleRecord
          [2, 1, 0] ∧
      ((∀ x ∈ ((scenarioHeap sampleLevels) 2).m_handlers ++
            ((scenarioHeap sampleLevels) 1).m_handlers ++
            ((scenarioHeap sampleLevels) 0).m_handlers,
          ((sampleEnv sampleLevels).handler x).publish sampleRecord = true) →
        callHandlers (sampleEnv sampleLevels) (scenarioHeap sampleLevels) sampleRecord 3 2 =
          { trace := publishes 2 sampleRecord ((scenarioHeap sampleLevels) 2).m_handlers ++
              publishes 1 sampleRecord ((scenarioHeap sampleLevels) 1).m_handlers ++
              publishes 0 sampleRecord ((scenarioHeap sampleLevels) 0).m_handlers,
            result := none })) :=
  ⟨scenarioHeap_chain sampleLevels, rfl, rfl, le_refl 3,
   callHandlers_additive_chain (sampleEnv sampleLevels) (scenarioHeap sampleLevels)
     sampleRecord 3 0 1 2 (scenarioHeap_chain sampleLevels) rfl rfl (le_refl 3)⟩

/-- C4: when the chain from `p` is `pre ++ s :: post` with every logger of `pre`
additive and `s` the first logger that is not additive, `callHandlers` on `p`
runs the handler loops of `pre` and of `s` in chain order and stops: no
`publish` is invoked through any ancestor in `post`, and a handler that is
attached to none of the loggers of `pre` and `s` is not invoked at all. With
`pre = [b]`, `s = a`,
`post = [root]` this is the chain `root -> a -> b` with `b` additive and `a`
not: the handlers of `b` and `a` receive the record, no handler is invoked
through the root. -/
theorem callHandlers_stops_at_non_additive (env : Env) (h : Heap) (rec : LogRecord)
    (fuel p s : Nat) (pre post : List Nat)
    (hchain : Chain h p (pre ++ s :: post))
    (hpre : ∀ q ∈ pre, (h q).m_isAdditive = true)
    (hs : (h s).m_isAdditive = false)
    (hfuel : pre.length + 1 ≤ fuel) :
    callHandlers env h rec fuel p = dispatchOver env h rec (pre ++ [s]) ∧
    (∀ q ∈ post, ∀ x r, Event.publish q x r ∉ (callHandlers env h rec fuel p).trace) ∧
    (∀ x, (∀ q ∈ pre ++ [s], x ∉ (h q).m_handlers) →
      ∀ q r, Event.publish q x r ∉ (callHandlers env h rec fuel p).trace) ∧
    ((∀ q ∈ pre ++ [s], ∀ x ∈ (h q).m_handlers, (env.handler x).publish rec = true) →
      callHandlers env h rec fuel p =
        { trace := publishesOver h rec (pre ++ [s]), result := none }) := by
  have hreach := reaches_of_chain_split pre hchain hpre hs
  have heq := callHandlers_of_reaches env h rec hreach fuel (by simpa using hfuel)
  refine ⟨heq, ?_, ?_, ?_⟩
  rotate_left
  · intro x hx q r hmem
    rw [heq] at hmem
    obtain ⟨q2, hq2, y, hy, hey⟩ := dispatchOver_trace_mem env h rec _ _ hmem
    injection hey with _ hxy _
    subst hxy
    exact hx q2 hq2 hy
  rotate_left
  · intro q hq x r hmem
    rw [heq] at hmem
    obtain ⟨q2, hq2, y, _, hey⟩ := dispatchOver_trace_mem env h rec _ _ hmem
    injection hey with hvia _ _
    subst hvia
    have hnd := Chain.nodup hchain
    rw [show pre ++ s :: post = (pre ++ [s]) ++ post by simp] at hnd
    exact (List.disjoint_of_nodup_append hnd) hq2 hq
  · intro hq
    rw [heq, dispatchOver_quiet env h rec _ hq]

theorem isolatedHeap_chain (lv : LogLevel) : Chain (isolatedHeap lv) 2 ([2] ++ 1 :: [0]) :=
  Chain.step 2 1 [1, 0] rfl (Chain.step 1 0 [0] rfl (Chain.root 0 rfl))

/-- Witness of C4: "svc.db" is additive, "svc" is not; the root is never
reached. -/
theorem callHandlers_stops_at_non_additive_witness :
    Chain (isolatedHeap sampleLevels) 2 ([2] ++ 1 :: [0]) ∧
    (∀ q ∈ [2], ((isolatedHeap sampleLevels) q).m_isAdditive = true) ∧
    ((isolatedHeap sampleLevels) 1).m_isAdditive = false ∧
    [2].length + 1 ≤ 2 ∧
    (callHandlers (sampleEnv sampleLevels) (isolatedHeap sampleLevels) sampleRecord 2 2 =
        dispatchOver (sampleEnv sampleLevels) (isolatedHeap sampleLevels) sampleRecord
          ([2] ++ [1]) ∧
      (∀ q ∈ [0], ∀ x r, Event.publish q x r ∉
        (callHandlers (sampleEnv sampleLevels) (isolatedHeap sampleLevels)
          sampleRecord 2 2).trace) ∧
      (∀ x, (∀ q ∈ [2] ++ [1], x ∉ ((isolatedHeap sampleLevels) q).m_handlers) →
        ∀ q r, Event.publish q x r ∉
          (callHandlers (sampleEnv sampleLevels) (isolatedHeap sampleLevels)
            sampleRecord 2 2).trace) ∧
      ((∀ q ∈ [2] ++ [1], ∀ x ∈ ((isolatedHeap sampleLevels) q).m_handlers,
          ((sampleEnv sampleLevels).handler x).publish sampleRecord = true) →
        callHandlers (sampleEnv sampleLevels) (isolatedHeap sampleLevels) sampleRecord 2 2 =
          { trace := publishesOver (isolatedHeap sampleLevels) sampleRecord ([2] ++ [1]),
            result := none })) :=
  ⟨isolatedHeap_chain sampleLevels, by decide, by decide, by decide,
   callHandlers_stops_at_non_additive (sampleEnv sampleLevels) (isolatedHeap sampleLevels)
     sampleRecord 2 2 1 [2] [0] (isolatedHeap_chain sampleLevels) (by decide) (by decide)
     (by decide)⟩

theorem isolatedHeap_trace :
    callHandlers (sampleEnv sampleLevels) (isolatedHeap sampleLevels) sampleRecord 2 2 =
    { trace := [Event.publish 2 8 sampleRecord, Event.publish 2 9 sampleRecord,
                Event.publish 1 7 sampleRecord], result := none } := by decide

theorem scenarioHeap_trace :
    callHandlers (sampleEnv sampleLevels) (scenarioHeap sampleLevels) sampleRecord 3 2 =
    { trace := [Event.publish 2 8 sampleRecord, Event.publish 2 9 sampleRecord,
                Event.publish 1 7 sampleRecord, Event.publish 0 7 sampleRecord],
      result := none } := by decide

/-! ## The level gate -/

/-- C5: whatever the logging entry point and its arguments, when
`isLevelEnabled` answers false for the level of the call, the call builds no
record, invokes no `publish` on the logger or any ancestor, and returns
normally. No logging function assigns to a member of a logger, so the heap is
the same after the call. -/
theorem disabled_call_is_silent (env : Env) (h : Heap) (fuel p : Nat) (c : Call)
    (hdisabled : isLevelEnabled env.lv h fuel p (c.level env) = Res.ok false) :
    c.run env h fuel p = { trace := [], result := none } := by
  cases c <;>
    simp only [Call.level] at hdisabled <;>
    simp [Call.run, logFormat, logIndexFormat, logBf, logIndexBf, logva, logvaIndex,
      logvaNoTime, logMessage, logIndexMessage, logNoTime, debugFormat, debugMessage,
      infoFormat, infoMessage, warnFormat, warnMessage, errorFormat, errorMessage,
      alertFormat, alertMessage, fatalFormat, fatalMessage, ifLevelEnabled, hdisabled,
      Run.skip, Run.nothrow]

/-- Witness of C5: `info("x")` on "svc" under a root with level `WARN`. -/
theorem disabled_call_is_silent_witness :
    isLevelEnabled (sampleEnv sampleLevels).lv (scenarioHeap sampleLevels) 2 1
        ((Call.infoMessage "x").level (sampleEnv sampleLevels)) = Res.ok false ∧
    (Call.infoMessage "x").run (sampleEnv sampleLevels) (scenarioHeap sampleLevels) 2 1 =
      { trace := [], result := none } :=
  ⟨by decide,
   disabled_call_is_silent (sampleEnv sampleLevels) (scenarioHeap sampleLevels) 2 1
     (Call.infoMessage "x") (by decide)⟩

/-! ## Termination of the walk and `setLevel` -/

theorem getChainedLevel_returns (lv : LogLevel) {h : Heap} {p : Nat} {ps : List Nat}
    (hchain : Chain h p ps)
    (hroot : ∀ r ∈ ps, (h r).m_parent = none → (h r).m_level < lv.NOTSET) :
    ∃ v, ∀ fuel, ps.length ≤ fuel → getChainedLevel lv h fuel (some p) = Res.ok v := by
  induction hchain with
  | root p hp =>
    refine ⟨(h p).m_level, ?_⟩
    intro fuel hfuel
    obtain ⟨f, rfl⟩ : ∃ f, fuel = f + 1 := ⟨fuel - 1, by simp at hfuel; omega⟩
    rw [getChainedLevel_succ, if_neg (not_le.mpr (hroot p (by simp) hp))]
  | step p q ps hpq _ ih =>
    obtain ⟨v, hv⟩ := ih (fun x hx => hroot x (List.mem_cons_of_mem _ hx))
    by_cases hge : (h p).m_level ≥ lv.NOTSET
    · refine ⟨v, ?_⟩
      intro fuel hfuel
      obtain ⟨f, rfl⟩ : ∃ f, fuel = f + 1 := ⟨fuel - 1, by simp at hfuel; omega⟩
      rw [getChainedLevel_succ, if_pos hge, hpq]
      exact hv f (by simp at hfuel; omega)
    · refine ⟨(h p).m_level, ?_⟩
      intro fuel hfuel
      obtain ⟨f, rfl⟩ : ∃ f, fuel = f + 1 := ⟨fuel - 1, by simp at hfuel; omega⟩
      rw [getChainedLevel_succ, if_neg hge]

theorem setLevel_parent (lv : LogLevel) (h : Heap) (p : Nat) (level : LogControlID)
    (x : Nat) : ((setLevel lv h p level).1 x).m_parent = (h x).m_parent := by
  unfold setLevel
  split
  · by_cases hx : x = p
    · subst hx; simp
    · simp [Function.update_noteq hx]
  · rfl

theorem setLevel_other (lv : LogLevel) (h : Heap) (p : Nat) (level : LogControlID)
    (x : Nat) (hx : x ≠ p) : (setLevel lv h p level).1 x = h x := by
  unfold setLevel
  split
  · simp [Function.update_noteq hx]
  · rfl

theorem setLevel_chain (lv : LogLevel) {h : Heap} (p : Nat) (level : LogControlID)
    {q : Nat} {ps : List Nat} (hc : Chain h q ps) : Chain (setLevel lv h p level).1 q ps := by
  induction hc with
  | root q hq => exact Chain.root q (by rw [setLevel_parent]; exact hq)
  | step q r ps hqr _ ih => exact Chain.step q r ps (by rw [setLevel_parent]; exact hqr) ih

theorem setLevel_root_level (lv : LogLevel) (h : Heap) (p : Nat) (level : LogControlID)
    (r : Nat) (hr : (h r).m_parent = none) (hset : (h r).m_level ≠ lv.NOTSET) :
    ((setLevel lv h p level).1 r).m_level ≠ lv.NOTSET := by
  by_cases hrp : r = p
  · subst hrp
    unfold setLevel
    split
    · rename_i hcond
      rcases hcond with hlt | hpar
      · simp
        exact ne_of_lt hlt
      · exact absurd hr hpar
    · exact hset
  · rw [setLevel_other lv h p level r hrp]
    exact hset

/-- C8: on a logger without parent, `setLevel(NOTSET)` throws
`std::invalid_argument` and leaves every logger as it was; and a root whose
level is not `NOTSET` still has no parent and a level that is not `NOTSET`
after any sequence of `setLevel` calls on any loggers. -/
theorem setLevel_root_NOTSET_rejected (lv : LogLevel) (h : Heap) (r : Nat)
    (hroot : (h r).m_parent = none) :
    setLevel lv h r lv.NOTSET =
      (h, some (Exception.invalid_argument "cannot set level NOTSET on Root Logger")) ∧
    ((h r).m_level ≠ lv.NOTSET → ∀ calls : List (Nat × LogControlID),
      ((setLevels lv h calls) r).m_parent = none ∧
      ((setLevels lv h calls) r).m_level ≠ lv.NOTSET) := by
  constructor
  · unfold setLevel
    rw [if_neg]
    simp [Logger.getParent, hroot]
  · intro hset calls
    induction calls generalizing h with
    | nil => exact ⟨hroot, hset⟩
    | cons c cs ih =>
      simp only [setLevels]
      exact ih (setLevel lv h c.1 c.2).1 (by rw [setLevel_parent]; exact hroot)
        (setLevel_root_level lv h c.1 c.2 r hroot hset)

/-- Witness of C8 on the root of the scenario heap. -/
theorem setLevel_root_NOTSET_rejected_witness :
    ((scenarioHeap sampleLevels) 0).m_parent = none ∧
    (setLevel sampleLevels (scenarioHeap sampleLevels) 0 sampleLevels.NOTSET =
        (scenarioHeap sampleLevels,
          some (Exception.invalid_argument "cannot set level NOTSET on Root Logger")) ∧
      (((scenarioHeap sampleLevels) 0).m_level ≠ sampleLevels.NOTSET →
        ∀ calls : List (Nat × LogControlID),
          ((setLevels sampleLevels (scenarioHeap sampleLevels) calls) 0).m_parent = none ∧
          ((setLevels sampleLevels (scenarioHeap sampleLevels) calls) 0).m_level ≠
            sampleLevels.NOTSET)) :=
  ⟨rfl, setLevel_root_NOTSET_rejected sampleLevels (scenarioHeap sampleLevels) 0 rfl⟩

/-- C9: on a logger `p` with parent `q` whose chain ends at a root with a level
below `NOTSET`, `setLevel(NOTSET)` raises nothing, sets the level of `p` to
`NOTSET` and changes nothing else; afterwards `getChainedLevel` returns on `p`
and on `q`, with the same level. -/
theorem setLevel_NOTSET_inherits (lv : LogLevel) (h : Heap) (fuel p q : Nat) (ps : List Nat)
    (hparent : (h p).m_parent = some q)
    (hchain : Chain h p ps)
    (hroot : ∀ r ∈ ps, (h r).m_parent = none → (h r).m_level < lv.NOTSET)
    (hfuel : ps.length ≤ fuel) :
    (setLevel lv h p lv.NOTSET).2 = none ∧
    (setLevel lv h p lv.NOTSET).1 = Function.update h p { h p with m_level := lv.NOTSET } ∧
    ∃ v, getChainedLevel lv (setLevel lv h p lv.NOTSET).1 fuel (some p) = Res.ok v ∧
      getChainedLevel lv (setLevel lv h p lv.NOTSET).1 fuel (some q) = Res.ok v := by
  have hcond : lv.NOTSET < lv.NOTSET ∨ (h p).getParent ≠ none :=
    Or.inr (by simp [Logger.getParent, hparent])
  have hnew : setLevel lv h p lv.NOTSET =
      (Function.update h p { h p with m_level := lv.NOTSET }, none) := by
    unfold setLevel
    rw [if_pos hcond]
  refine ⟨by rw [hnew], by rw [hnew], ?_⟩
  obtain ⟨qs, rfl⟩ := Chain.head_eq hchain
  have hqs : qs ≠ [] := by
    intro hnil
    subst hnil
    have := Chain.singleton hchain
    rw [hparent] at this
    cases this
  obtain ⟨q2, hpq2, hcq⟩ := Chain.cons_inv hchain hqs
  rw [hparent] at hpq2
  cases hpq2
  have hcq2 : Chain (setLevel lv h p lv.NOTSET).1 q qs := setLevel_chain lv p lv.NOTSET hcq
  have hp_notin : p ∉ qs := (List.nodup_cons.mp (Chain.nodup hchain)).1
  obtain ⟨v, hv⟩ := getChainedLevel_returns lv hcq2 (by
    intro r hr hrp
    have hrne : r ≠ p := fun heq => hp_notin (heq ▸ hr)
    rw [setLevel_other lv h p lv.NOTSET r hrne]
    rw [setLevel_parent] at hrp
    exact hroot r (List.mem_cons_of_mem _ hr) hrp)
  refine ⟨v, ?_, hv fuel (by simp at hfuel; omega)⟩
  obtain ⟨f, rfl⟩ : ∃ f, fuel = f + 1 := ⟨fuel - 1, by simp at hfuel; omega⟩
  have hlevel : ((setLevel lv h p lv.NOTSET).1 p).m_level = lv.NOTSET := by
    rw [hnew]
    simp
  rw [getChainedLevel_succ, hlevel, if_pos (le_refl _), setLevel_parent, hparent]
  exact hv f (by simp at hfuel; omega)

theorem verboseHeap_chain (lv : LogLevel) : Chain (verboseHeap lv) 2 [2, 1, 0] :=
  Chain.step 2 1 [1, 0] rfl (Chain.step 1 0 [0] rfl (Chain.root 0 rfl))

/-- Witness of C9: "svc.db" had level `DBG`; after `setLevel(NOTSET)` it
resolves to the level of "svc", which is the root's `WARN`. -/
theorem setLevel_NOTSET_inherits_witness :
    ((verboseHeap sampleLevels) 2).m_parent = some 1 ∧
    Chain (verboseHeap sampleLevels) 2 [2, 1, 0] ∧
    (∀ r ∈ [2, 1, 0], ((verboseHeap sampleLevels) r).m_parent = none →
      ((verboseHeap sampleLevels) r).m_level < sampleLevels.NOTSET) ∧
    [2, 1, 0].length ≤ 3 ∧
    ((setLevel sampleLevels (verboseHeap sampleLevels) 2 sampleLevels.NOTSET).2 = none ∧
      (setLevel sampleLevels (verboseHeap sampleLevels) 2 sampleLevels.NOTSET).1 =
        Function.update (verboseHeap sampleLevels) 2
          { verboseHeap sampleLevels 2 with m_level := sampleLevels.NOTSET } ∧
      ∃ v, getChainedLevel sampleLevels
          (setLevel sampleLevels (verboseHeap sampleLevels) 2 sampleLevels.NOTSET).1 3
          (some 2) = Res.ok v ∧
        getChainedLevel sampleLevels
          (setLevel sampleLevels (verboseHeap sampleLevels) 2 sampleLevels.NOTSET).1 3
          (some 1) = Res.ok v) :=
  ⟨rfl, verboseHeap_chain sampleLevels, by decide, by decide,
   setLevel_NOTSET_inherits sampleLevels (verboseHeap sampleLevels) 3 2 1 [2, 1, 0] rfl
     (verboseHeap_chain sampleLevels) (by decide) (by decide)⟩

theorem verboseHeap_levels :
    getChainedLevel sampleLevels (verboseHeap sampleLevels) 3 (some 2) = Res.ok 700 ∧
    getChainedLevel sampleLevels
      (setLevel sampleLevels (verboseHeap sampleLevels) 2 sampleLevels.NOTSET).1 3
      (some 2) = Res.ok 400 := by
  decide

/-- C10: on a parent chain that ends at a root with a level below `NOTSET`,
`isLevelEnabled` returns for every level, and it is monotonic: for
`level1 <= level2`, enabled at `level2` implies enabled at `level1`. -/
theorem isLevelEnabled_monotone (lv : LogLevel) (h : Heap) (fuel p : Nat) (ps : List Nat)
    (level1 level2 : LogControlID)
    (hchain : Chain h p ps)
    (hroot : ∀ r ∈ ps, (h r).m_parent = none → (h r).m_level < lv.NOTSET)
    (hfuel : ps.length ≤ fuel)
    (hle : level1 ≤ level2) :
    ∃ b1 b2, isLevelEnabled lv h fuel p level1 = Res.ok b1 ∧
      isLevelEnabled lv h fuel p level2 = Res.ok b2 ∧ (b2 = true → b1 = true) := by
  obtain ⟨v, hv⟩ := getChainedLevel_returns lv hchain hroot
  refine ⟨decide (v ≥ level1), decide (v ≥ level2), ?_, ?_, ?_⟩
  · simp only [isLevelEnabled, hv fuel hfuel]
  · simp only [isLevelEnabled, hv fuel hfuel]
  · intro h2
    have h2le : level2 ≤ v := of_decide_eq_true h2
    exact decide_eq_true (le_trans hle h2le)

/-- Witness of C10: under the root's `WARN`, enabled at `ERR` (code 300) gives
enabled at `FATAL` (code 0). -/
theorem isLevelEnabled_monotone_witness :
    Chain (scenarioHeap sampleLevels) 2 [2, 1, 0] ∧
    (∀ r ∈ [2, 1, 0], ((scenarioHeap sampleLevels) r).m_parent = none →
      ((scenarioHeap sampleLevels) r).m_level < sampleLevels.NOTSET) ∧
    [2, 1, 0].length ≤ 3 ∧
    sampleLevels.FATAL ≤ sampleLevels.ERR ∧
    ∃ b1 b2,
      isLevelEnabled sampleLevels (scenarioHeap sampleLevels) 3 2 sampleLevels.FATAL =
        Res.ok b1 ∧
      isLevelEnabled sampleLevels (scenarioHeap sampleLevels) 3 2 sampleLevels.ERR =
        Res.ok b2 ∧
      (b2 = true → b1 = true) :=
  ⟨scenarioHeap_chain sampleLevels, by decide, by decide, by decide,
   isLevelEnabled_monotone sampleLevels (scenarioHeap sampleLevels) 3 2 [2, 1, 0]
     sampleLevels.FATAL sampleLevels.ERR (scenarioHeap_chain sampleLevels) (by decide)
     (by decide) (by decide)⟩

/-! ## Failures while logging -/

/-- C6, counterexample: on "svc", at an enabled level, with a handler that
raises during `publish`. `log(ERR, "y")` builds the one record with level
`ERR` (code 300) and invokes the handler; the exception cannot leave
`callHandlers`, which is declared `throw()`, so the process ends: the call does
not return and no record with level `FATAL` is dispatched. The C-format
overload `error("y")` ends the same way, the exception never reaching its
`catch(...)`. -/
theorem logMessage_handler_raises :
    isLevelEnabled (raisingEnv sampleLevels).lv (scenarioHeap sampleLevels) 2 1
        sampleLevels.ERR = Res.ok true ∧
    logMessage (raisingEnv sampleLevels) (scenarioHeap sampleLevels) 2 1 sampleLevels.ERR
        "y" =
      { trace :=
          [Event.newRecord (some { loggerName := "svc", message := "y", level := 300,
                                   hasIndex := false, index := 0,
                                   timestamp := { sec := 1, usec := 0 } }),
           Event.publish 1 7 { loggerName := "svc", message := "y", level := 300,
                               hasIndex := false, index := 0,
                               timestamp := { sec := 1, usec := 0 } }],
        result := some Fault.terminate } ∧
    errorFormat (raisingEnv sampleLevels) (scenarioHeap sampleLevels) 2 1 "y" [] =
      { trace :=
          [Event.newRecord (some { loggerName := "svc", message := "y", level := 300,
                                   hasIndex := false, index := 0,
                                   timestamp := { sec := 1, usec := 0 } }),
           Event.publish 1 7 { loggerName := "svc", message := "y", level := 300,
                               hasIndex := false, index := 0,
                               timestamp := { sec := 1, usec := 0 } }],
        result := some Fault.terminate } := by
  decide

theorem dispatchPlain_result_ne (env : Env) (h : Heap) (fuel p : Nat) (message : String)
    (level : LogControlID) (hasIndex : Bool) (index : Nat) (timestamp : Timestamp) :
    (dispatchPlain env h fuel p message level hasIndex index timestamp).result ≠
      some Fault.exception := by
  simp only [dispatchPlain, LogRecord.build, Run.seq]
  exact callHandlers_result_ne env h _ fuel p

theorem logUnconditionally_format_raises (env : Env) (h : Heap) (fuel p : Nat)
    (level : LogControlID) (format : String) (arguments : va_list)
    (hrelease : env.debugBuild = false)
    (hfails : env.vformat format arguments = none) :
    logUnconditionally env h fuel p level format arguments =
      { trace := Event.newRecord none ::
          Event.newRecord (some (fatalSubstitute env h p format none)) ::
          (callHandlers env h (fatalSubstitute env h p format none) fuel p).trace,
        result := (callHandlers env h (fatalSubstitute env h p format none) fuel p).result } := by
  rw [logUnconditionally, Run.nothrow_of_ne]
  · simp [tryCatchUnlessDebug, hrelease, dispatchFormatted, LogRecord.buildFormatted, hfails,
      dispatchPlain, LogRecord.build, Run.seq, fatalSubstitute, Logger.getName]
  · have hplain := dispatchPlain_result_ne env h fuel p format env.lv.FATAL false 0 env.now
    simpa [tryCatchUnlessDebug, hrelease, dispatchFormatted, LogRecord.buildFormatted, hfails]
      using hplain

theorem logUnconditionallyIndex_format_raises (env : Env) (h : Heap) (fuel p : Nat)
    (level : LogControlID) (index : Nat) (format : String) (arguments : va_list)
    (hrelease : env.debugBuild = false)
    (hfails : env.vformat format arguments = none) :
    logUnconditionallyIndex env h fuel p level index format arguments =
      { trace := Event.newRecord none ::
          Event.newRecord (some (fatalSubstitute env h p format (some index))) ::
          (callHandlers env h (fatalSubstitute env h p format (some index)) fuel p).trace,
        result :=
          (callHandlers env h (fatalSubstitute env h p format (some index)) fuel p).result } := by
  rw [logUnconditionallyIndex, Run.nothrow_of_ne]
  · simp [tryCatchUnlessDebug, hrelease, dispatchFormatted, LogRecord.buildFormatted, hfails,
      dispatchPlain, LogRecord.build, Run.seq, fatalSubstitute, Logger.getName]
  · have hplain := dispatchPlain_result_ne env h fuel p format env.lv.FATAL true index env.now
    simpa [tryCatchUnlessDebug, hrelease, dispatchFormatted, LogRecord.buildFormatted, hfails]
      using hplain

/-- C6, amended: for the C-format entry points that go through
`logUnconditionally` (with or without index), in a build without `_DEBUG` and
at an enabled level: when the formatting constructor of the record raises, the
call builds a second record with the logger's name, the unformatted format as
message, level `FATAL` and the index supplied, and dispatches it by
`callHandlers` on the same logger; the call ends as that dispatch ends, so it
returns normally when no handler raises in it. -/
theorem formatting_failure_dispatches_fatal (env : Env) (h : Heap) (fuel p : Nat) (c : Call)
    (format : String) (arguments : va_list) (index : Option Nat)
    (hcall : c.cformat = some (format, arguments, index))
    (hrelease : env.debugBuild = false)
    (henabled : isLevelEnabled env.lv h fuel p (c.level env) = Res.ok true)
    (hfails : env.vformat format arguments = none) :
    c.run env h fuel p =
      { trace := Event.newRecord none ::
          Event.newRecord (some (fatalSubstitute env h p format index)) ::
          (callHandlers env h (fatalSubstitute env h p format index) fuel p).trace,
        result := (callHandlers env h (fatalSubstitute env h p format index) fuel p).result } ∧
    ((callHandlers env h (fatalSubstitute env h p format index) fuel p).result = none →
      (c.run env h fuel p).result = none) := by
  have key : c.run env h fuel p =
      { trace := Event.newRecord none ::
          Event.newRecord (some (fatalSubstitute env h p format index)) ::
          (callHandlers env h (fatalSubstitute env h p format index) fuel p).trace,
        result :=
          (callHandlers env h (fatalSubstitute env h p format index) fuel p).result } := by
    cases c <;> simp [Call.cformat] at hcall <;>
      (obtain ⟨rfl, rfl, rfl⟩ := hcall
       simp only [Call.level] at henabled
       simp only [Call.run, logFormat, logIndexFormat, logva, logvaIndex, debugFormat,
         warnFormat, errorFormat, alertFormat, fatalFormat, ifLevelEnabled, henabled]
       first
       | (rw [logUnconditionally_format_raises env h fuel p _ _ _ hrelease hfails]
          exact Run.nothrow_of_ne _ (callHandlers_result_ne env h _ fuel p))
       | (rw [logUnconditionallyIndex_format_raises env h fuel p _ _ _ _ hrelease hfails]
          exact Run.nothrow_of_ne _ (callHandlers_result_ne env h _ fuel p)))
  refine ⟨key, ?_⟩
  intro hsecond
  rw [key]
  exact hsecond

/-- Witness of C6 (amended): `error("%d", "1")` on "svc" with a format that
raises and handlers that return. -/
theorem formatting_failure_dispatches_fatal_witness :
    (Call.errorFormat "%d" ["1"]).cformat = some ("%d", some ["1"], none) ∧
    (sampleEnv sampleLevels).debugBuild = false ∧
    isLevelEnabled (sampleEnv sampleLevels).lv (scenarioHeap sampleLevels) 2 1
        ((Call.errorFormat "%d" ["1"]).level (sampleEnv sampleLevels)) = Res.ok true ∧
    (sampleEnv sampleLevels).vformat "%d" (some ["1"]) = none ∧
    (callHandlers (sampleEnv sampleLevels) (scenarioHeap sampleLevels)
        (fatalSubstitute (sampleEnv sampleLevels) (scenarioHeap sampleLevels) 1 "%d" none)
        2 1).result = none ∧
    (Call.errorFormat "%d" ["1"]).run (sampleEnv sampleLevels) (scenarioHeap sampleLevels)
        2 1 =
      { trace := Event.newRecord none ::
          Event.newRecord (some (fatalSubstitute (sampleEnv sampleLevels)
            (scenarioHeap sampleLevels) 1 "%d" none)) ::
          (callHandlers (sampleEnv sampleLevels) (scenarioHeap sampleLevels)
            (fatalSubstitute (sampleEnv sampleLevels) (scenarioHeap sampleLevels) 1 "%d"
              none) 2 1).trace,
        result :=
          (callHandlers (sampleEnv sampleLevels) (scenarioHeap sampleLevels)
            (fatalSubstitute (sampleEnv sampleLevels) (scenarioHeap sampleLevels) 1 "%d"
              none) 2 1).result } ∧
    ((Call.errorFormat "%d" ["1"]).run (sampleEnv sampleLevels) (scenarioHeap sampleLevels)
      2 1).result = none :=
  ⟨rfl, rfl, by decide, rfl, by decide,
   (formatting_failure_dispatches_fatal (sampleEnv sampleLevels) (scenarioHeap sampleLevels)
      2 1 (Call.errorFormat "%d" ["1"]) "%d" (some ["1"]) none rfl rfl (by decide) rfl).1,
   (formatting_failure_dispatches_fatal (sampleEnv sampleLevels) (scenarioHeap sampleLevels)
      2 1 (Call.errorFormat "%d" ["1"]) "%d" (some ["1"]) none rfl rfl (by decide) rfl).2
     (by decide)⟩

theorem errorFormat_substitute_trace :
    errorFormat (sampleEnv sampleLevels) (scenarioHeap sampleLevels) 2 1 "%d" ["1"] =
      { trace :=
          [Event.newRecord none,
           Event.newRecord (some { loggerName := "svc", message := "%d", level := 0,
                                   hasIndex := false, index := 0,
                                   timestamp := { sec := 1, usec := 0 } }),
           Event.publish 1 7 { loggerName := "svc", message := "%d", level := 0,
                               hasIndex := false, index := 0,
                               timestamp := { sec := 1, usec := 0 } },
           Event.publish 0 7 { loggerName := "svc", message := "%d", level := 0,
                               hasIndex := false, index := 0,
                               timestamp := { sec := 1, usec := 0 } }],
        result := none } := by
  decide

/-- C7, at the failing input: `logvaNoTime(ERR, "%d", args)` on "svc" with a
format that raises. The substitute record has the zero timestamp and the
logger's name, but its level is the requested `ERR` (code 300), not `FATAL`
(code 0); `logva` and the indexed `logva` on the same input build a substitute
with level `FATAL`. -/
theorem logvaNoTime_substitute_keeps_level :
    logvaNoTime (sampleEnv sampleLevels) (scenarioHeap sampleLevels) 2 1 sampleLevels.ERR
        "%d" (some ["1"]) =
      { trace :=
          [Event.newRecord none,
           Event.newRecord (some { loggerName := "svc", message := "%d", level := 300,
                                   hasIndex := false, index := 0,
                                   timestamp := { sec := 0, usec := 0 } }),
           Event.publish 1 7 { loggerName := "svc", message := "%d", level := 300,
                               hasIndex := false, index := 0,
                               timestamp := { sec := 0, usec := 0 } },
           Event.publish 0 7 { loggerName := "svc", message := "%d", level := 300,
                               hasIndex := false, index := 0,
                               timestamp := { sec := 0, usec := 0 } }],
        result := none } ∧
    logva (sampleEnv sampleLevels) (scenarioHeap sampleLevels) 2 1 sampleLevels.ERR
        "%d" (some ["1"]) =
      { trace :=
          [Event.newRecord none,
           Event.newRecord (some { loggerName := "svc", message := "%d", level := 0,
                                   hasIndex := false, index := 0,
                                   timestamp := { sec := 1, usec := 0 } }),
           Event.publish 1 7 { loggerName := "svc", message := "%d", level := 0,
                               hasIndex := false, index := 0,
                               timestamp := { sec := 1, usec := 0 } },
           Event.publish 0 7 { loggerName := "svc", message := "%d", level := 0,
                               hasIndex := false, index := 0,
                               timestamp := { sec := 1, usec := 0 } }],
        result := none } ∧
    logvaIndex (sampleEnv sampleLevels) (scenarioHeap sampleLevels) 2 1 sampleLevels.ERR 5
        "%d" (some ["1"]) =
      { trace :=
          [Event.newRecord none,
           Event.newRecord (some { loggerName := "svc", message := "%d", level := 0,
                                   hasIndex := true, index := 5,
                                   timestamp := { sec := 1, usec := 0 } }),
           Event.publish 1 7 { loggerName := "svc", message := "%d", level := 0,
                               hasIndex := true, index := 5,
                               timestamp := { sec := 1, usec := 0 } },
           Event.publish 0 7 { loggerName := "svc", message := "%d", level := 0,
                               hasIndex := true, index := 5,
                               timestamp := { sec := 1, usec := 0 } }],
        result := none } := by
  decide

/-! ## Handler lists -/

theorem stdFind_eq_none (l : List Nat) (x : Nat) : stdFind l x = none ↔ x ∉ l := by
  induction l with
  | nil => simp [stdFind]
  | cons y ys ih =>
    by_cases hyx : y = x
    · simp [stdFind, hyx]
    · have hxy : ¬ x = y := fun e => hyx e.symm
      simp [stdFind, hyx, hxy, ih]

theorem stdFind_split (pre post : List Nat) (x : Nat) (hx : x ∉ pre) :
    stdFind (pre ++ x :: post) x = some pre.length := by
  induction pre with
  | nil => simp [stdFind]
  | cons y ys ih =>
    have hyx : ¬ y = x := fun e => hx (by simp [e])
    have hys : x ∉ ys := fun hm => hx (List.mem_cons_of_mem _ hm)
    simp [stdFind, hyx, ih hys]

theorem stdFind_lt (l : List Nat) (x i : Nat) (hi : stdFind l x = some i) :
    i < l.length ∧ l.get? i = some x ∧ x ∉ l.take i := by
  induction l generalizing i with
  | nil => simp [stdFind] at hi
  | cons y ys ih =>
    by_cases hyx : y = x
    · simp [stdFind, hyx] at hi
      subst hi
      simp [hyx]
    · simp only [stdFind, hyx, if_false, Option.map_eq_some'] at hi
      obtain ⟨j, hj, rfl⟩ := hi
      obtain ⟨h1, h2, h3⟩ := ih j hj
      have hxy : ¬ x = y := fun e => hyx e.symm
      refine ⟨by simp; omega, by simpa using h2, ?_⟩
      simp [List.take_succ_cons, hxy, h3]

theorem eraseIdx_split (pre post : List Nat) (x : Nat) :
    (pre ++ x :: post).eraseIdx pre.length = pre ++ post := by
  induction pre with
  | nil => simp
  | cons y ys ih => simp [ih]

theorem getHandlerLoop_split (env : Env) (name : String) (pre post : List Nat) (x : Nat)
    (hpre : ∀ y ∈ pre, (env.handler y).getName ≠ name)
    (hx : (env.handler x).getName = name) :
    getHandlerLoop env name (pre ++ x :: post) = some x := by
  induction pre with
  | nil => simp [getHandlerLoop, hx]
  | cons y ys ih =>
    have hy : (env.handler y).getName ≠ name := hpre y (by simp)
    simp [getHandlerLoop, hy, ih (fun z hz => hpre z (List.mem_cons_of_mem _ hz))]

theorem getHandlerLoop_none (env : Env) (name : String) (l : List Nat)
    (hl : ∀ y ∈ l, (env.handler y).getName ≠ name) :
    getHandlerLoop env name l = none := by
  induction l with
  | nil => rfl
  | cons y ys ih =>
    have hy : (env.handler y).getName ≠ name := hl y (by simp)
    simp [getHandlerLoop, hy, ih (fun z hz => hl z (List.mem_cons_of_mem _ hz))]

/-- C11: for a non-null handler `x`, `addHandler(x)` right after `addHandler(x)`
raises nothing and leaves every logger as the first call left it; `x` is in
the list, and it is there exactly once when the list had no duplicates before
(which every list built by the handler operations has). -/
theorem addHandler_twice (h : Heap) (p x : Nat) :
    (addHandler h p (some x)).2 = none ∧
    addHandler (addHandler h p (some x)).1 p (some x) = ((addHandler h p (some x)).1, none) ∧
    x ∈ ((addHandler h p (some x)).1 p).m_handlers ∧
    ((h p).m_handlers.Nodup → ((addHandler h p (some x)).1 p).m_handlers.count x = 1) := by
  cases hfind : stdFind (h p).m_handlers x with
  | none =>
    have hnot : x ∉ (h p).m_handlers := (stdFind_eq_none _ _).mp hfind
    have hfirst : addHandler h p (some x) =
        (Function.update h p { h p with m_handlers := (h p).m_handlers ++ [x] }, none) := by
      simp [addHandler, hfind]
    have hsecond : stdFind ((h p).m_handlers ++ [x]) x = some (h p).m_handlers.length :=
      stdFind_split _ [] x hnot
    refine ⟨by rw [hfirst], ?_, ?_, ?_⟩
    · rw [hfirst]
      simp [addHandler, hsecond]
    · rw [hfirst]
      simp
    · intro _
      rw [hfirst]
      simp [List.count_append, List.count_eq_zero_of_not_mem hnot]
  | some i =>
    have hmem : x ∈ (h p).m_handlers := by
      by_contra hnot
      rw [(stdFind_eq_none _ _).mpr hnot] at hfind
      cases hfind
    have hfirst : addHandler h p (some x) = (h, none) := by
      simp [addHandler, hfind]
    refine ⟨by rw [hfirst], ?_, ?_, ?_⟩
    · rw [hfirst]
      exact hfirst
    · rw [hfirst]
      exact hmem
    · intro hnd
      rw [hfirst]
      exact List.count_eq_one_of_mem hnd hmem

/-- Witness of C11: handler 5 added twice to "svc", whose list is `[7]`. -/
theorem addHandler_twice_witness :
    ((scenarioHeap sampleLevels) 1).m_handlers.Nodup ∧
    (addHandler (scenarioHeap sampleLevels) 1 (some 5)).2 = none ∧
    addHandler (addHandler (scenarioHeap sampleLevels) 1 (some 5)).1 1 (some 5) =
      ((addHandler (scenarioHeap sampleLevels) 1 (some 5)).1, none) ∧
    5 ∈ ((addHandler (scenarioHeap sampleLevels) 1 (some 5)).1 1).m_handlers ∧
    ((addHandler (scenarioHeap sampleLevels) 1 (some 5)).1 1).m_handlers.count 5 = 1 :=
  ⟨by decide,
   (addHandler_twice (scenarioHeap sampleLevels) 1 5).1,
   (addHandler_twice (scenarioHeap sampleLevels) 1 5).2.1,
   (addHandler_twice (scenarioHeap sampleLevels) 1 5).2.2.1,
   (addHandler_twice (scenarioHeap sampleLevels) 1 5).2.2.2 (by decide)⟩

theorem scenarioHeap_add_lists :
    ((scenarioHeap sampleLevels) 1).m_handlers.Nodup ∧
    ((addHandler (scenarioHeap sampleLevels) 1 (some 5)).1 1).m_handlers = [7, 5] ∧
    ((addHandler (addHandler (scenarioHeap sampleLevels) 1 (some 5)).1 1 (some 5)).1
      1).m_handlers = [7, 5] := by
  decide

/-- C12: `addHandler` throws `std::invalid_argument` exactly when the handler is
null, and then leaves every logger as it was; for a non-null handler that is
not in the list it raises nothing and appends the handler at the end of the
list, every existing entry staying in place and nothing else changing. -/
theorem addHandler_null_iff (h : Heap) (p : Nat) (handler : LogHandlerPtr) :
    ((addHandler h p handler).2 = some (Exception.invalid_argument "NULL handler") ↔
      handler = none) ∧
    ((addHandler h p handler).2 ≠ none ↔ handler = none) ∧
    (handler = none → (addHandler h p handler).1 = h) ∧
    (∀ x, handler = some x → x ∉ (h p).m_handlers →
      addHandler h p handler =
        (Function.update h p { h p with m_handlers := (h p).m_handlers ++ [x] }, none)) := by
  cases handler with
  | none => simp [addHandler]
  | some x =>
    refine ⟨?_, ?_, ?_, ?_⟩
    · cases hfind : stdFind (h p).m_handlers x <;> simp [addHandler, hfind]
    · cases hfind : stdFind (h p).m_handlers x <;> simp [addHandler, hfind]
    · intro hnone
      cases hnone
    · intro y hy hnot
      cases hy
      simp [addHandler, (stdFind_eq_none _ _).mpr hnot]

/-- Witness of C12: handler 5 is not in the list `[7]` of "svc". -/
theorem addHandler_null_iff_witness :
    5 ∉ ((scenarioHeap sampleLevels) 1).m_handlers ∧
    addHandler (scenarioHeap sampleLevels) 1 (some 5) =
      (Function.update (scenarioHeap sampleLevels) 1
        { scenarioHeap sampleLevels 1 with
          m_handlers := ((scenarioHeap sampleLevels) 1).m_handlers ++ [5] }, none) ∧
    (addHandler (scenarioHeap sampleLevels) 1 none).1 = scenarioHeap sampleLevels ∧
    (addHandler (scenarioHeap sampleLevels) 1 none).2 =
      some (Exception.invalid_argument "NULL handler") :=
  ⟨by decide,
   (addHandler_null_iff (scenarioHeap sampleLevels) 1 (some 5)).2.2.2 5 rfl (by decide),
   (addHandler_null_iff (scenarioHeap sampleLevels) 1 none).2.2.1 rfl,
   (addHandler_null_iff (scenarioHeap sampleLevels) 1 none).1.mpr rfl⟩

/-- C13: `removeHandler(handler)` with a handler that is not in the list (or a
null handler) raises nothing and leaves every logger exactly as it was: the
handler list, the level and the additivity are unchanged. -/
theorem removeHandler_absent (h : Heap) (p : Nat) (handler : LogHandlerPtr)
    (habsent : ∀ x, handler = some x → x ∉ (h p).m_handlers) :
    removeHandler h p handler = (h, none) := by
  cases handler with
  | none => rfl
  | some x =>
    simp [removeHandler, (stdFind_eq_none _ _).mpr (habsent x rfl)]

/-- Witness of C13: handler 5 is not in the list `[7]` of "svc". -/
theorem removeHandler_absent_witness :
    (∀ x, some 5 = some x → x ∉ ((scenarioHeap sampleLevels) 1).m_handlers) ∧
    removeHandler (scenarioHeap sampleLevels) 1 (some 5) = (scenarioHeap sampleLevels, none) :=
  ⟨by intro x hx; cases hx; decide,
   removeHandler_absent (scenarioHeap sampleLevels) 1 (some 5)
     (by intro x hx; cases hx; decide)⟩

/-- C14: when the handler list is `pre ++ x :: post`, `x` reports `name` and no
handler of `pre` does, `getHandler(name)` returns `x` and `removeHandler(name)`
raises nothing and leaves the list `pre ++ post`, changing nothing else; when
no handler of the list reports `name`, `getHandler(name)` returns the null
pointer and `removeHandler(name)` raises nothing and changes nothing. -/
theorem removeHandlerByName_first (env : Env) (h : Heap) (p : Nat) (name : String) :
    (∀ pre x post, (h p).m_handlers = pre ++ x :: post →
      (∀ y ∈ pre, (env.handler y).getName ≠ name) → (env.handler x).getName = name →
      getHandler env h p name = some x ∧
      removeHandlerByName env h p name =
        (Function.update h p { h p with m_handlers := pre ++ post }, none)) ∧
    ((∀ y ∈ (h p).m_handlers, (env.handler y).getName ≠ name) →
      getHandler env h p name = none ∧ removeHandlerByName env h p name = (h, none)) := by
  constructor
  · intro pre x post hlist hpre hx
    have hget : getHandler env h p name = some x := by
      rw [getHandler, hlist]
      exact getHandlerLoop_split env name pre post x hpre hx
    have hnot : x ∉ pre := fun hm => hpre x hm hx
    refine ⟨hget, ?_⟩
    rw [removeHandlerByName, hget]
    simp only [removeHandler]
    rw [hlist, stdFind_split pre post x hnot]
    simp only [eraseIdx_split]
  · intro hnone
    have hget : getHandler env h p name = none := getHandlerLoop_none env name _ hnone
    exact ⟨hget, by rw [removeHandlerByName, hget]; rfl⟩

/-- Witness of C14: on the list `[7, 8, 9, 10]` with names by parity, "even"
finds and removes handler 8 and keeps 10; no handler is named "none". -/
theorem removeHandlerByName_first_witness :
    ((crowdedHeap sampleLevels) 1).m_handlers = [7] ++ 8 :: [9, 10] ∧
    (∀ y ∈ [7], ((parityEnv sampleLevels).handler y).getName ≠ "even") ∧
    ((parityEnv sampleLevels).handler 8).getName = "even" ∧
    (∀ y ∈ ((crowdedHeap sampleLevels) 1).m_handlers,
      ((parityEnv sampleLevels).handler y).getName ≠ "none") ∧
    getHandler (parityEnv sampleLevels) (crowdedHeap sampleLevels) 1 "even" = some 8 ∧
    removeHandlerByName (parityEnv sampleLevels) (crowdedHeap sampleLevels) 1 "even" =
      (Function.update (crowdedHeap sampleLevels) 1
        { crowdedHeap sampleLevels 1 with m_handlers := [7] ++ [9, 10] }, none) ∧
    getHandler (parityEnv sampleLevels) (crowdedHeap sampleLevels) 1 "none" = none ∧
    removeHandlerByName (parityEnv sampleLevels) (crowdedHeap sampleLevels) 1 "none" =
      (crowdedHeap sampleLevels, none) :=
  ⟨by decide, by decide, by decide, by decide,
   ((removeHandlerByName_first (parityEnv sampleLevels) (crowdedHeap sampleLevels) 1
      "even").1 [7] 8 [9, 10] (by decide) (by decide) (by decide)).1,
   ((removeHandlerByName_first (parityEnv sampleLevels) (crowdedHeap sampleLevels) 1
      "even").1 [7] 8 [9, 10] (by decide) (by decide) (by decide)).2,
   ((removeHandlerByName_first (parityEnv sampleLevels) (crowdedHeap sampleLevels) 1
      "none").2 (by decide)).1,
   ((removeHandlerByName_first (parityEnv sampleLevels) (crowdedHeap sampleLevels) 1
      "none").2 (by decide)).2⟩

theorem crowdedHeap_lists :
    ((removeHandlerByName (parityEnv sampleLevels) (crowdedHeap sampleLevels) 1 "even").1
      1).m_handlers = [7, 9, 10] ∧
    ((removeHandler (crowdedHeap sampleLevels) 1 (some 9)).1 1).m_handlers = [7, 8, 10] ∧
    ((removeAllHandlers (crowdedHeap sampleLevels) 1) 1).m_handlers = [] ∧
    getAllHandlers (crowdedHeap sampleLevels) 1 = [7, 8, 9, 10] := by
  decide

/-! ## The handler list under sequences of calls -/

theorem runHandlerOps_append (env : Env) (p : Nat) (ops : List HandlerOp) (op : HandlerOp) :
    ∀ h : Heap, runHandlerOps env h p (ops ++ [op]) = op.run env (runHandlerOps env h p ops) p := by
  induction ops with
  | nil => intro h; rfl
  | cons o os ih => intro h; simp only [List.cons_append, runHandlerOps]; exact ih _

theorem removeHandler_list (g : Heap) (p : Nat) (handler : LogHandlerPtr) :
    ∃ i, ((removeHandler g p handler).1 p).m_handlers = (g p).m_handlers.eraseIdx i := by
  cases handler with
  | none => exact ⟨(g p).m_handlers.length, by
      simp [removeHandler, List.eraseIdx_of_length_le (le_refl _)]⟩
  | some x =>
    cases hfind : stdFind (g p).m_handlers x with
    | none =>
      exact ⟨(g p).m_handlers.length, by
        simp [removeHandler, hfind, List.eraseIdx_of_length_le (le_refl _)]⟩
    | some i => exact ⟨i, by simp [removeHandler, hfind]⟩

theorem handlerOp_step (env : Env) (g : Heap) (p : Nat) (op : HandlerOp) :
    (∃ x, op = HandlerOp.addHandler (some x) ∧ x ∉ (g p).m_handlers ∧
      ((op.run env g p) p).m_handlers = (g p).m_handlers ++ [x]) ∨
    (∃ i, ((op.run env g p) p).m_handlers = (g p).m_handlers.eraseIdx i) ∨
    ((op.run env g p) p).m_handlers = [] := by
  cases op with
  | addHandler handler =>
    cases handler with
    | none =>
      right; left
      exact ⟨(g p).m_handlers.length, by
        simp [HandlerOp.run, addHandler, List.eraseIdx_of_length_le (le_refl _)]⟩
    | some x =>
      cases hfind : stdFind (g p).m_handlers x with
      | none =>
        left
        exact ⟨x, rfl, (stdFind_eq_none _ _).mp hfind, by simp [HandlerOp.run, addHandler, hfind]⟩
      | some i =>
        right; left
        exact ⟨(g p).m_handlers.length, by
          simp [HandlerOp.run, addHandler, hfind, List.eraseIdx_of_length_le (le_refl _)]⟩
  | removeHandler handler =>
    right; left
    exact removeHandler_list g p handler
  | removeHandlerByName name =>
    right; left
    exact removeHandler_list g p (getHandler env g p name)
  | removeAllHandlers =>
    right; right
    simp [HandlerOp.run, removeAllHandlers]

theorem map_eraseIdx_fst (st : List (Nat × Nat)) (i : Nat) :
    (st.eraseIdx i).map Prod.fst = (st.map Prod.fst).eraseIdx i := by
  induction st generalizing i with
  | nil => rfl
  | cons a as ih =>
    cases i with
    | zero => rfl
    | succ j => simp [ih j]

theorem map_eraseIdx_snd (st : List (Nat × Nat)) (i : Nat) :
    (st.eraseIdx i).map Prod.snd = (st.map Prod.snd).eraseIdx i := by
  induction st generalizing i with
  | nil => rfl
  | cons a as ih =>
    cases i with
    | zero => rfl
    | succ j => simp [ih j]

theorem InsertedAt.lt_length {env : Env} {h : Heap} {p : Nat} {ops : List HandlerOp}
    {x t : Nat} (hi : InsertedAt env h p ops x t) : t < ops.length := by
  obtain ⟨hlt, _⟩ := List.getElem?_eq_some.mp hi.1
  exact hlt

theorem InsertedAt.snoc {env : Env} {h : Heap} {p : Nat} {ops : List HandlerOp}
    {x t : Nat} (op : HandlerOp) (hi : InsertedAt env h p ops x t)
    (hmem : x ∈ ((runHandlerOps env h p (ops ++ [op])) p).m_handlers) :
    InsertedAt env h p (ops ++ [op]) x t := by
  have hlt := hi.lt_length
  obtain ⟨hget, hbefore, hafter⟩ := hi
  refine ⟨?_, ?_, ?_⟩
  · rw [List.getElem?_append_left hlt]
    exact hget
  · rw [List.take_append_of_le_length (le_of_lt hlt)]
    exact hbefore
  · intro k htk hk
    by_cases hkl : k ≤ ops.length
    · rw [List.take_append_of_le_length hkl]
      exact hafter k htk hkl
    · have hk2 : (ops ++ [op]).length ≤ k := by simp at hk ⊢; omega
      rw [List.take_of_length_le hk2]
      exact hmem

theorem InsertedAt.last {env : Env} {h : Heap} {p : Nat} {ops : List HandlerOp} {x : Nat}
    (hnot : x ∉ ((runHandlerOps env h p ops) p).m_handlers)
    (hmem : x ∈ ((runHandlerOps env h p (ops ++ [HandlerOp.addHandler (some x)])) p).m_handlers) :
    InsertedAt env h p (ops ++ [HandlerOp.addHandler (some x)]) x ops.length := by
  refine ⟨?_, ?_, ?_⟩
  · simp
  · rw [List.take_append_of_le_length (le_refl _), List.take_length]
    exact hnot
  · intro k htk hk
    have hk2 : (ops ++ [HandlerOp.addHandler (some x)]).length ≤ k := by simp at hk ⊢; omega
    rw [List.take_of_length_le hk2]
    exact hmem

/-- C15: starting from an empty handler list, after any sequence of
`addHandler`, `removeHandler(h)`, `removeHandler(name)` and `removeAllHandlers`
calls the list has no two entries that are the same handler, and it is in
insertion order: every entry `x` has the number `t` of the `addHandler(x)` call
that inserted it (`x` was absent before that call and has been present ever
since), and these numbers increase along the list. -/
theorem handlers_nodup_in_insertion_order (env : Env) (h : Heap) (p : Nat)
    (ops : List HandlerOp) (hempty : (h p).m_handlers = []) :
    ((runHandlerOps env h p ops) p).m_handlers.Nodup ∧
    ∃ st : List (Nat × Nat),
      st.map Prod.fst = ((runHandlerOps env h p ops) p).m_handlers ∧
      (st.map Prod.snd).Pairwise (fun a b => a < b) ∧
      ∀ x t, (x, t) ∈ st → InsertedAt env h p ops x t := by
  induction ops using List.reverseRecOn with
  | nil => exact ⟨by simp [runHandlerOps, hempty], [], by simp [runHandlerOps, hempty]⟩
  | append_singleton ops op ih =>
    obtain ⟨hnd, st, hfst, hsnd, hst⟩ := ih
    rcases handlerOp_step env (runHandlerOps env h p ops) p op with
      ⟨x, hop, hnot, hnew⟩ | ⟨i, hnew⟩ | hnew
    · subst hop
      have hlist : ((runHandlerOps env h p (ops ++ [HandlerOp.addHandler (some x)])) p).m_handlers
          = ((runHandlerOps env h p ops) p).m_handlers ++ [x] := by
        rw [runHandlerOps_append]
        exact hnew
      refine ⟨?_, st ++ [(x, ops.length)], ?_, ?_, ?_⟩
      · rw [hlist]
        exact List.nodup_append.mpr ⟨hnd, by simp, by
          intro a ha hb
          simp at hb
          subst hb
          exact hnot ha⟩
      · rw [hlist, List.map_append, hfst]
        rfl
      · rw [List.map_append, List.pairwise_append]
        refine ⟨hsnd, by simp, ?_⟩
        intro a ha b hb
        simp at hb
        subst hb
        obtain ⟨⟨y, t⟩, hyt, rfl⟩ := List.mem_map.mp ha
        exact (hst y t hyt).lt_length
      · intro y t hyt
        rcases List.mem_append.mp hyt with hold | hlast
        · apply InsertedAt.snoc _ (hst y t hold)
          rw [hlist]
          apply List.mem_append_left
          rw [← hfst]
          exact List.mem_map.mpr ⟨(y, t), hold, rfl⟩
        · simp at hlast
          obtain ⟨rfl, rfl⟩ := hlast
          exact InsertedAt.last hnot (by rw [hlist]; simp)
    · have hlist : ((runHandlerOps env h p (ops ++ [op])) p).m_handlers
          = ((runHandlerOps env h p ops) p).m_handlers.eraseIdx i := by
        rw [runHandlerOps_append]
        exact hnew
      refine ⟨?_, st.eraseIdx i, ?_, ?_, ?_⟩
      · rw [hlist]
        exact List.Nodup.sublist (List.eraseIdx_sublist _ _) hnd
      · rw [hlist, map_eraseIdx_fst, hfst]
      · rw [map_eraseIdx_snd]
        exact List.Pairwise.sublist (List.eraseIdx_sublist _ _) hsnd
      · intro y t hyt
        apply InsertedAt.snoc _ (hst y t (List.mem_of_mem_eraseIdx hyt))
        rw [hlist, ← hfst, ← map_eraseIdx_fst]
        exact List.mem_map.mpr ⟨(y, t), hyt, rfl⟩
    · have hlist : ((runHandlerOps env h p (ops ++ [op])) p).m_handlers = [] := by
        rw [runHandlerOps_append]
        exact hnew
      exact ⟨by rw [hlist]; simp, [], by rw [hlist]; rfl, by simp, by simp⟩

/-- Witness of C15 on the sample sequence, started on the emptied list of
"svc". -/
theorem handlers_nodup_in_insertion_order_witness :
    ((bareHeap sampleLevels) 1).m_handlers = [] ∧
    (((runHandlerOps (sampleEnv sampleLevels) (bareHeap sampleLevels) 1 sampleOps)
        1).m_handlers.Nodup ∧
      ∃ st : List (Nat × Nat),
        st.map Prod.fst =
          ((runHandlerOps (sampleEnv sampleLevels) (bareHeap sampleLevels) 1 sampleOps)
            1).m_handlers ∧
        (st.map Prod.snd).Pairwise (fun a b => a < b) ∧
        ∀ x t, (x, t) ∈ st →
          InsertedAt (sampleEnv sampleLevels) (bareHeap sampleLevels) 1 sampleOps x t) :=
  ⟨by decide,
   handlers_nodup_in_insertion_order (sampleEnv sampleLevels) (bareHeap sampleLevels) 1
     sampleOps (by decide)⟩

theorem sampleOps_list :
    ((runHandlerOps (sampleEnv sampleLevels) (bareHeap sampleLevels) 1 sampleOps)
      1).m_handlers = [8, 7] ∧
    ((runHandlerOps (sampleEnv sampleLevels) (bareHeap sampleLevels) 1 (sampleOps.take 3))
      1).m_handlers = [7, 8] := by
  decide

/-! ## Bounded walk -/

/-- C18: on a parent chain `ps` from `p` that ends at a root whose level is not
`NOTSET` (and, as a code, not above it), whatever the levels of the other
loggers on the chain, the walk of `getChainedLevel` returns a level within
`ps.length` evaluations of the loop condition (the depth of the logger plus
one), and with any smaller budget it is still under way: at no point does it
follow the parent link of a logger without parent. -/
theorem getChainedLevel_terminates (lv : LogLevel) (h : Heap) (p : Nat) (ps : List Nat)
    (hchain : Chain h p ps)
    (hroot : ∀ r ∈ ps, (h r).m_parent = none →
      (h r).m_level ≠ lv.NOTSET ∧ (h r).m_level ≤ lv.NOTSET) :
    ∃ v, (∀ fuel, ps.length ≤ fuel → getChainedLevel lv h fuel (some p) = Res.ok v) ∧
      (∀ fuel, getChainedLevel lv h fuel (some p) = Res.ok v ∨
        getChainedLevel lv h fuel (some p) = Res.fault Fault.outOfFuel) ∧
      (∀ fuel, getChainedLevel lv h fuel (some p) ≠ Res.fault Fault.nullDeref) := by
  have key : ∃ v, (∀ fuel, ps.length ≤ fuel → getChainedLevel lv h fuel (some p) = Res.ok v) ∧
      (∀ fuel, getChainedLevel lv h fuel (some p) = Res.ok v ∨
        getChainedLevel lv h fuel (some p) = Res.fault Fault.outOfFuel) := by
    induction hchain with
    | root p hp =>
      obtain ⟨hne, hle⟩ := hroot p (by simp) hp
      have hlt : ¬ (h p).m_level ≥ lv.NOTSET := fun hge => hne (le_antisymm hle hge)
      refine ⟨(h p).m_level, ?_, ?_⟩
      · intro fuel hfuel
        obtain ⟨f, rfl⟩ : ∃ f, fuel = f + 1 := ⟨fuel - 1, by simp at hfuel; omega⟩
        rw [getChainedLevel_succ, if_neg hlt]
      · intro fuel
        cases fuel with
        | zero => right; rfl
        | succ f => left; rw [getChainedLevel_succ, if_neg hlt]
    | step p q ps hpq _ ih =>
      obtain ⟨v, hv, hany⟩ := ih (fun x hx => hroot x (List.mem_cons_of_mem _ hx))
      by_cases hge : (h p).m_level ≥ lv.NOTSET
      · refine ⟨v, ?_, ?_⟩
        · intro fuel hfuel
          obtain ⟨f, rfl⟩ : ∃ f, fuel = f + 1 := ⟨fuel - 1, by simp at hfuel; omega⟩
          rw [getChainedLevel_succ, if_pos hge, hpq]
          exact hv f (by simp at hfuel; omega)
        · intro fuel
          cases fuel with
          | zero => right; rfl
          | succ f =>
            rw [getChainedLevel_succ, if_pos hge, hpq]
            exact hany f
      · refine ⟨(h p).m_level, ?_, ?_⟩
        · intro fuel hfuel
          obtain ⟨f, rfl⟩ : ∃ f, fuel = f + 1 := ⟨fuel - 1, by simp at hfuel; omega⟩
          rw [getChainedLevel_succ, if_neg hge]
        · intro fuel
          cases fuel with
          | zero => right; rfl
          | succ f => left; rw [getChainedLevel_succ, if_neg hge]
  obtain ⟨v, hv, hany⟩ := key
  refine ⟨v, hv, hany, ?_⟩
  intro fuel hnull
  rcases hany fuel with hok | hout
  · rw [hok] at hnull
    cases hnull
  · rw [hout] at hnull
    cases hnull

/-- Witness of C18 on the scenario heap: "svc.db" has depth 2, the walk needs
three evaluations. -/
theorem getChainedLevel_terminates_witness :
    Chain (scenarioHeap sampleLevels) 2 [2, 1, 0] ∧
    (∀ r ∈ [2, 1, 0], ((scenarioHeap sampleLevels) r).m_parent = none →
      ((scenarioHeap sampleLevels) r).m_level ≠ sampleLevels.NOTSET ∧
      ((scenarioHeap sampleLevels) r).m_level ≤ sampleLevels.NOTSET) ∧
    ∃ v, (∀ fuel, [2, 1, 0].length ≤ fuel →
        getChainedLevel sampleLevels (scenarioHeap sampleLevels) fuel (some 2) = Res.ok v) ∧
      (∀ fuel, getChainedLevel sampleLevels (scenarioHeap sampleLevels) fuel (some 2) =
          Res.ok v ∨
        getChainedLevel sampleLevels (scenarioHeap sampleLevels) fuel (some 2) =
          Res.fault Fault.outOfFuel) ∧
      (∀ fuel, getChainedLevel sampleLevels (scenarioHeap sampleLevels) fuel (some 2) ≠
        Res.fault Fault.nullDeref) :=
  ⟨scenarioHeap_chain sampleLevels, by decide,
   getChainedLevel_terminates sampleLevels (scenarioHeap sampleLevels) 2 [2, 1, 0]
     (scenarioHeap_chain sampleLevels) (by decide)⟩

theorem scenarioHeap_walk :
    getChainedLevel sampleLevels (scenarioHeap sampleLevels) 2 (some 2) =
      Res.fault Fault.outOfFuel ∧
    getChainedLevel sampleLevels (scenarioHeap sampleLevels) 3 (some 2) = Res.ok 400 := by
  decide

/-! ## Additivity of a new logger -/

theorem setLevel_additive (lv : LogLevel) (h : Heap) (q : Nat) (level : LogControlID)
    (p : Nat) : ((setLevel lv h q level).1 p).m_isAdditive = (h p).m_isAdditive := by
  unfold setLevel
  split
  · by_cases hp : p = q
    · subst hp; simp
    · simp [Function.update_noteq hp]
  · rfl

theorem setLevels_additive (lv : LogLevel) (p : Nat) (calls : List (Nat × LogControlID)) :
    ∀ h : Heap, ((setLevels lv h calls) p).m_isAdditive = (h p).m_isAdditive := by
  induction calls with
  | nil => intro h; rfl
  | cons c cs ih =>
    intro h
    simp only [setLevels]
    rw [ih, setLevel_additive]

theorem update_handlers_additive (g : Heap) (q p : Nat) (l : List Nat) :
    ((Function.update g q { g q with m_handlers := l }) p).m_isAdditive =
      (g p).m_isAdditive := by
  by_cases hp : p = q
  · subst hp; simp
  · simp [Function.update_noteq hp]

theorem addHandler_additive (g : Heap) (q p : Nat) (handler : LogHandlerPtr) :
    ((addHandler g q handler).1 p).m_isAdditive = (g p).m_isAdditive := by
  cases handler with
  | none => rfl
  | some x =>
    cases hfind : stdFind (g q).m_handlers x with
    | none => simp only [addHandler, hfind]; exact update_handlers_additive g q p _
    | some i => simp only [addHandler, hfind]

theorem removeHandler_additive (g : Heap) (q p : Nat) (handler : LogHandlerPtr) :
    ((removeHandler g q handler).1 p).m_isAdditive = (g p).m_isAdditive := by
  cases handler with
  | none => rfl
  | some x =>
    cases hfind : stdFind (g q).m_handlers x with
    | none => simp only [removeHandler, hfind]
    | some i => simp only [removeHandler, hfind]; exact update_handlers_additive g q p _

theorem handlerOp_additive (env : Env) (g : Heap) (q p : Nat) (op : HandlerOp) :
    ((op.run env g q) p).m_isAdditive = (g p).m_isAdditive := by
  cases op with
  | addHandler handler => exact addHandler_additive g q p handler
  | removeHandler handler => exact removeHandler_additive g q p handler
  | removeHandlerByName name => exact removeHandler_additive g q p _
  | removeAllHandlers => exact update_handlers_additive g q p []

theorem runHandlerOps_additive (env : Env) (q p : Nat) (ops : List HandlerOp) :
    ∀ g : Heap, ((runHandlerOps env g q ops) p).m_isAdditive = (g p).m_isAdditive := by
  induction ops with
  | nil => intro g; rfl
  | cons o os ih =>
    intro g
    simp only [runHandlerOps]
    rw [ih, handlerOp_additive]

/-- C16, counterexample: a logger built by the constructor answers `false` to
`getAdditivity()`, not `true`. -/
theorem new_logger_is_not_additive :
    (Logger.new "svc" (some 0) 800).getAdditivity = false ∧
    (Logger.new "svc" (some 0) 800).getAdditivity ≠ true := by
  decide

/-- C16, amended: for every name, parent and level passed to the constructor
the new logger has additivity `false`; `getAdditivity()` keeps returning
`false` through any `setLevel` calls and any handler-list calls on any logger,
and after `setAdditivity(b)` it returns `b`. -/
theorem new_logger_additivity_false (name : String) (parent : LoggerPtr)
    (level : LogControlID) :
    (Logger.new name parent level).getAdditivity = false ∧
    (∀ (lv : LogLevel) (env : Env) (h : Heap) (p : Nat), h p = Logger.new name parent level →
      (∀ calls, ((setLevels lv h calls) p).getAdditivity = false) ∧
      (∀ q ops, ((runHandlerOps env h q ops) p).getAdditivity = false)) ∧
    (∀ (h : Heap) (p : Nat) (b : Bool), ((setAdditivity h p b) p).getAdditivity = b) := by
  refine ⟨rfl, ?_, ?_⟩
  · intro lv env h p hp
    have hfalse : (h p).m_isAdditive = false := by rw [hp]; rfl
    constructor
    · intro calls
      simp only [Logger.getAdditivity]
      rw [setLevels_additive, hfalse]
    · intro q ops
      simp only [Logger.getAdditivity]
      rw [runHandlerOps_additive, hfalse]
  · intro h p b
    simp [setAdditivity, Logger.getAdditivity]

/-- Witness of C16 (amended): a heap whose logger at address 3 is fresh from
the constructor. -/
theorem new_logger_additivity_false_witness :
    (Function.update (scenarioHeap sampleLevels) 3 (Logger.new "svc.io" (some 1) 800)) 3 =
      Logger.new "svc.io" (some 1) 800 ∧
    (∀ calls, ((setLevels sampleLevels
        (Function.update (scenarioHeap sampleLevels) 3 (Logger.new "svc.io" (some 1) 800))
        calls) 3).getAdditivity = false) ∧
    (∀ q ops, ((runHandlerOps (sampleEnv sampleLevels)
        (Function.update (scenarioHeap sampleLevels) 3 (Logger.new "svc.io" (some 1) 800))
        q ops) 3).getAdditivity = false) :=
  ⟨by simp,
   ((new_logger_additivity_false "svc.io" (some 1) 800).2.1 sampleLevels
      (sampleEnv sampleLevels) _ 3 (by simp)).1,
   ((new_logger_additivity_false "svc.io" (some 1) 800).2.1 sampleLevels
      (sampleEnv sampleLevels) _ 3 (by simp)).2⟩

/-! ## The two overloads of a level -/

/-- C17, at the failing input: on "svc.db" with level `DBG`, where `INFO` is
enabled, `info("hello")` through the format overload builds no record and
invokes no handler, while `info(message)` dispatches the record to the four
handlers on the chain; at `DBG` the format overload does what the message
overload does. -/
theorem infoFormat_dispatches_nothing :
    isLevelEnabled sampleLevels (verboseHeap sampleLevels) 3 2 sampleLevels.INFO =
      Res.ok true ∧
    infoFormat (sampleEnv sampleLevels) (verboseHeap sampleLevels) 3 2 "hello" [] =
      { trace := [], result := none } ∧
    infoMessage (sampleEnv sampleLevels) (verboseHeap sampleLevels) 3 2 "hello" =
      { trace :=
          [Event.newRecord (some { loggerName := "svc.db", message := "hello", level := 600,
                                   hasIndex := false, index := 0,
                                   timestamp := { sec := 1, usec := 0 } }),
           Event.publish 2 8 { loggerName := "svc.db", message := "hello", level := 600,
                               hasIndex := false, index := 0,
                               timestamp := { sec := 1, usec := 0 } },
           Event.publish 2 9 { loggerName := "svc.db", message := "hello", level := 600,
                               hasIndex := false, index := 0,
                               timestamp := { sec := 1, usec := 0 } },
           Event.publish 1 7 { loggerName := "svc.db", message := "hello", level := 600,
                               hasIndex := false, index := 0,
                               timestamp := { sec := 1, usec := 0 } },
           Event.publish 0 7 { loggerName := "svc.db", message := "hello", level := 600,
                               hasIndex := false, index := 0,
                               timestamp := { sec := 1, usec := 0 } }],
        result := none } ∧
    debugFormat (sampleEnv sampleLevels) (verboseHeap sampleLevels) 3 2 "hello" [] =
      debugMessage (sampleEnv sampleLevels) (verboseHeap sampleLevels) 3 2 "hello" := by
  decide

theorem tryCatchUnlessDebug_of_ne (env : Env) (body handler : Run)
    (hbody : body.result ≠ some Fault.exception) :
    tryCatchUnlessDebug env body handler = body := by
  unfold tryCatchUnlessDebug
  cases env.debugBuild with
  | true => rfl
  | false =>
    cases body with
    | mk t res =>
      cases res with
      | none => rfl
      | some f =>
        cases f with
        | exception => exact absurd rfl hbody
        | terminate => rfl
        | nullDeref => rfl
        | outOfFuel => rfl

theorem logUnconditionally_plain (env : Env) (h : Heap) (fuel p : Nat)
    (level : LogControlID) (message : String) (arguments : va_list)
    (hformat : env.vformat message arguments = some message) :
    logUnconditionally env h fuel p level message arguments =
      dispatchPlain env h fuel p message level false 0 env.now := by
  have hsame : dispatchFormatted env h fuel p message arguments level false 0 env.now =
      dispatchPlain env h fuel p message level false 0 env.now := by
    simp [dispatchFormatted, LogRecord.buildFormatted, hformat, dispatchPlain]
  have hres := dispatchPlain_result_ne env h fuel p message level false 0 env.now
  rw [logUnconditionally, hsame, tryCatchUnlessDebug_of_ne env _ _ hres,
    Run.nothrow_of_ne _ hres]

/-- The sibling overloads: at `DBG`, `WARN`, `ERR`, `ALERT` and `FATAL` the format
overload, given a message that formatting leaves unchanged, runs exactly as
the message overload does. -/
theorem format_overloads_match_message_overloads (env : Env) (h : Heap) (fuel p : Nat)
    (message : String) (args : List String)
    (hformat : env.vformat message (some args) = some message) :
    debugFormat env h fuel p message args = debugMessage env h fuel p message ∧
    warnFormat env h fuel p message args = warnMessage env h fuel p message ∧
    errorFormat env h fuel p message args = errorMessage env h fuel p message ∧
    alertFormat env h fuel p message args = alertMessage env h fuel p message ∧
    fatalFormat env h fuel p message args = fatalMessage env h fuel p message := by
  refine ⟨?_, ?_, ?_, ?_, ?_⟩ <;>
    simp only [debugFormat, debugMessage, warnFormat, warnMessage, errorFormat, errorMessage,
      alertFormat, alertMessage, fatalFormat, fatalMessage] <;>
    rw [logUnconditionally_plain env h fuel p _ message (some args) hformat]

/-! ## The gate is applied once -/

theorem callHandlers_level_blind (env : Env) (h h2 : Heap) (rec : LogRecord)
    (hsame : ∀ q, (h2 q).m_handlers = (h q).m_handlers ∧
      (h2 q).m_isAdditive = (h q).m_isAdditive ∧ (h2 q).m_parent = (h q).m_parent) :
    ∀ fuel p, callHandlers env h2 rec fuel p = callHandlers env h rec fuel p := by
  intro fuel
  induction fuel with
  | zero => intro p; rfl
  | succ f ih =>
    intro p
    obtain ⟨h1, h2a, h3⟩ := hsame p
    rw [callHandlers_succ, callHandlers_succ, h1, h2a, h3]
    cases (h p).m_isAdditive <;> cases (h p).m_parent <;> simp [ih]

/-- C20: `callHandlers` consults no level: on two heaps that differ only in the
levels of their loggers it runs identically. So on a chain `ps` from `p` whose
loggers below the root are additive, a `log(level, message)` call that passes
`isLevelEnabled` on `p` builds one record and, with handlers that return,
invokes `publish` on the handlers of every logger of the chain in turn,
whatever the own level of each ancestor. -/
theorem ancestors_receive_whatever_their_level (env : Env) (h : Heap) (fuel p : Nat)
    (ps : List Nat) (level : LogControlID) (message : String)
    (hchain : Chain h p ps)
    (hadditive : ∀ q ∈ ps, (h q).m_parent ≠ none → (h q).m_isAdditive = true)
    (henabled : isLevelEnabled env.lv h fuel p level = Res.ok true)
    (hquiet : ∀ q ∈ ps, ∀ x ∈ (h q).m_handlers,
      (env.handler x).publish (formattedRecord env h p message level none) = true)
    (hfuel : ps.length ≤ fuel) :
    logMessage env h fuel p level message =
      { trace := Event.newRecord (some (formattedRecord env h p message level none)) ::
          publishesOver h (formattedRecord env h p message level none) ps,
        result := none } ∧
    (∀ h2 : Heap, (∀ q, h2 q = { h q with m_level := (h2 q).m_level }) →
      ∀ rec f q, callHandlers env h2 rec f q = callHandlers env h rec f q) := by
  constructor
  · have hreach := reaches_of_chain_additive hchain hadditive
    have hcall := callHandlers_of_reaches env h (formattedRecord env h p message level none)
      hreach fuel hfuel
    rw [dispatchOver_quiet env h _ ps hquiet] at hcall
    simp only [formattedRecord, Option.isSome_none, Option.getD_none] at hcall
    simp [logMessage, ifLevelEnabled, henabled, dispatchPlain, LogRecord.build, Run.seq,
      Run.nothrow, Logger.getName, formattedRecord, hcall]
  · intro h2 hsame rec f q
    apply callHandlers_level_blind
    intro r
    have hr := hsame r
    refine ⟨?_, ?_, ?_⟩ <;> rw [hr]

theorem strictRootHeap_chain (lv : LogLevel) : Chain (strictRootHeap lv) 1 [1, 0] :=
  Chain.step 1 0 [0] rfl (Chain.root 0 rfl)

/-- Witness of C20: the root has level `ERR`, "svc" has level `DBG`; a record
logged at `DBG` on "svc" reaches the root's handler. -/
theorem ancestors_receive_whatever_their_level_witness :
    Chain (strictRootHeap sampleLevels) 1 [1, 0] ∧
    (∀ q ∈ [1, 0], ((strictRootHeap sampleLevels) q).m_parent ≠ none →
      ((strictRootHeap sampleLevels) q).m_isAdditive = true) ∧
    isLevelEnabled (sampleEnv sampleLevels).lv (strictRootHeap sampleLevels) 2 1
      sampleLevels.DBG = Res.ok true ∧
    (∀ q ∈ [1, 0], ∀ x ∈ ((strictRootHeap sampleLevels) q).m_handlers,
      ((sampleEnv sampleLevels).handler x).publish
        (formattedRecord (sampleEnv sampleLevels) (strictRootHeap sampleLevels) 1 "trace"
          sampleLevels.DBG none) = true) ∧
    [1, 0].length ≤ 2 ∧
    (logMessage (sampleEnv sampleLevels) (strictRootHeap sampleLevels) 2 1 sampleLevels.DBG
        "trace" =
      { trace :=
          Event.newRecord (some (formattedRecord (sampleEnv sampleLevels)
            (strictRootHeap sampleLevels) 1 "trace" sampleLevels.DBG none)) ::
          publishesOver (strictRootHeap sampleLevels)
            (formattedRecord (sampleEnv sampleLevels) (strictRootHeap sampleLevels) 1 "trace"
              sampleLevels.DBG none) [1, 0],
        result := none } ∧
      (∀ h2 : Heap,
        (∀ q, h2 q = { strictRootHeap sampleLevels q with m_level := (h2 q).m_level }) →
        ∀ rec f q, callHandlers (sampleEnv sampleLevels) h2 rec f q =
          callHandlers (sampleEnv sampleLevels) (strictRootHeap sampleLevels) rec f q)) :=
  ⟨strictRootHeap_chain sampleLevels, by decide, by decide, by decide, by decide,
   ancestors_receive_whatever_their_level (sampleEnv sampleLevels)
     (strictRootHeap sampleLevels) 2 1 [1, 0] sampleLevels.DBG "trace"
     (strictRootHeap_chain sampleLevels) (by decide) (by decide) (by decide) (by decide)⟩

theorem strictRootHeap_trace :
    isLevelEnabled sampleLevels (strictRootHeap sampleLevels) 2 0 sampleLevels.DBG =
      Res.ok false ∧
    logMessage (sampleEnv sampleLevels) (strictRootHeap sampleLevels) 2 1 sampleLevels.DBG
        "trace" =
      { trace :=
          [Event.newRecord (some { loggerName := "svc", message := "trace", level := 700,
                                   hasIndex := false, index := 0,
                                   timestamp := { sec := 1, usec := 0 } }),
           Event.publish 1 8 { loggerName := "svc", message := "trace", level := 700,
                               hasIndex := false, index := 0,
                               timestamp := { sec := 1, usec := 0 } },
           Event.publish 0 7 { loggerName := "svc", message := "trace", level := 700,
                               hasIndex := false, index := 0,
                               timestamp := { sec := 1, usec := 0 } }],
        result := none } := by
  decide

end cacti
